import Mathlib

/-!
Verification development for the ELXPortal service-logbook component.

The definitions below are a shallow embedding of:
  * `src/components/service-logbook/stack-data.utils.ts` (micro-format codec,
    form-value extraction),
  * `src/components/service-logbook/category-registry.ts` (category configs and
    registry lookups),
  * the add / edit / recategorize dialog flow handlers (form-handlers module).

JavaScript strings are Lean `String`s, nullable values are `Option`s, and the
dynamic form-value / record-patch objects are association lists over a small JS
value type `JVal`.  The regular expressions used by the codec are deterministic
(quote-delimited fields separated by literal quote-comma-quote), so they are
embedded as an explicit leftmost-match scanner.
-/

namespace ServiceLogbook

/-- Single-quote character (code point 39) used by the micro-format tuples. -/
def qc : Char := Char.ofNat 39

-- ── Parsed sub-record types (stack-data.utils.ts) ───────────────────────

structure StackReplacement where
  identifier : String
  removed_serial_number : String
  added_serial_number : String
  stack_symptom : String
  stack_symptom_confirmed : Bool
  deriving Repr, DecidableEq

structure StackInspection where
  identifier : String
  serial_number : String
  insight : String
  completed : Bool
  deriving Repr, DecidableEq

structure StackTensioning where
  identifier : String
  serial_number : String
  insight : String
  completed : Bool
  deriving Repr, DecidableEq

structure StackInstall where
  identifier : String
  serial_number : String
  deriving Repr, DecidableEq

/-- The fixed identifier alphabet (`ALL_STACK_IDENTIFIERS`). -/
def ALL_STACK_IDENTIFIERS : List String := ["a", "b", "c", "d", "e"]

/-- Mirrors `getStackIdentifiers`: slice of the alphabet up to the count. -/
def getStackIdentifiers (stackCount : Nat) : List String :=
  ALL_STACK_IDENTIFIERS.take stackCount

-- ── Tuple matcher (embedding of the codec regular expressions) ──────────

/--
Match one quoted field at the head of the character list: an opening quote,
a run of non-quote characters (the captured group), and a closing quote.
`req = true` corresponds to a `+`-quantified group (at least one character),
`req = false` to a `*`-quantified group.  Returns the captured field and the
characters after the closing quote.  `dropWhile` stops only at a quote, so the
head char dropped in the second pattern is the closing quote itself.
-/
def matchOneField (req : Bool) (cs : List Char) : Option (String × List Char) :=
  match cs with
  | [] => none
  | c :: rest =>
    if c = qc then
      match rest.dropWhile (fun d => d != qc) with
      | [] => none
      | _ :: rest2 =>
        if req && (rest.takeWhile (fun d => d != qc)).isEmpty then none
        else some (String.mk (rest.takeWhile (fun d => d != qc)), rest2)
    else none

/--
Match a comma-separated sequence of quoted fields followed by a closing
parenthesis, one field per entry of `reqs`.  Characters after the closing
parenthesis are ignored, as a regular-expression match may occur mid-string.
-/
def matchFieldSeq : List Bool → List Char → Option (List String)
  | [], _ => none
  | req :: reqs, cs =>
    match matchOneField req cs with
    | none => none
    | some (f, rest) =>
      match reqs with
      | [] =>
        match rest with
        | ')' :: _ => some [f]
        | _ => none
      | _ :: _ =>
        match rest with
        | ',' :: rest2 => (matchFieldSeq reqs rest2).map (fun fs => f :: fs)
        | _ => none

/-- Match a full tuple pattern at the very start of the character list. -/
def matchTupleAt (reqs : List Bool) (cs : List Char) : Option (List String) :=
  match cs with
  | '(' :: rest => matchFieldSeq reqs rest
  | _ => none

/-- Leftmost regular-expression search: try the tuple pattern at every
position, returning the groups of the first match. -/
def searchTuple (reqs : List Bool) : List Char → Option (List String)
  | [] => none
  | c :: rest =>
    match matchTupleAt reqs (c :: rest) with
    | some fs => some fs
    | none => searchTuple reqs rest

-- ── Splitting on semicolons (String.prototype.split(";")) ───────────────

/-- Split a character list at every semicolon (like JS `split(";")`):
`n` semicolons produce `n + 1` segments, including empty ones. -/
def splitSemi : List Char → List (List Char)
  | [] => [[]]
  | c :: cs =>
    if c = ';' then [] :: splitSemi cs
    else
      match splitSemi cs with
      | [] => [[c]]
      | s :: ss => (c :: s) :: ss

/-- Mirrors the `.filter((r) => r.trim())` step: keep a segment when it is
non-empty after discarding whitespace (emptiness after a trim of both ends
equals emptiness after dropping leading whitespace). -/
def segmentKeep (seg : List Char) : Bool :=
  !(seg.dropWhile (fun c => c.isWhitespace)).isEmpty

-- ── Per-segment parsers, one per shape ──────────────────────────────────

/-- Segment parser for the Replacement 5-field pattern. -/
def parseReplacementSegment (seg : List Char) : Option StackReplacement :=
  match searchTuple [true, false, false, false, true] seg with
  | some [g1, g2, g3, g4, g5] =>
    some { identifier := g1, removed_serial_number := g2,
           added_serial_number := g3, stack_symptom := g4,
           stack_symptom_confirmed := g5 == "true" }
  | _ => none

/-- Segment parser for Inspection: the new 4-field pattern first, then the
legacy 3-field pattern with `completed` defaulted to `false`. -/
def parseInspectionSegment (seg : List Char) : Option StackInspection :=
  match searchTuple [true, false, false, true] seg with
  | some [g1, g2, g3, g4] =>
    some { identifier := g1, serial_number := g2, insight := g3,
           completed := g4 == "true" }
  | _ =>
    match searchTuple [true, false, false] seg with
    | some [g1, g2, g3] =>
      some { identifier := g1, serial_number := g2, insight := g3,
             completed := false }
    | _ => none

/-- Segment parser for Tensioning: only the 4-field pattern (the source has
no legacy fallback here). -/
def parseTensioningSegment (seg : List Char) : Option StackTensioning :=
  match searchTuple [true, false, false, true] seg with
  | some [g1, g2, g3, g4] =>
    some { identifier := g1, serial_number := g2, insight := g3,
           completed := g4 == "true" }
  | _ => none

/-- Segment parser for the Install 2-field pattern. -/
def parseInstallSegment (seg : List Char) : Option StackInstall :=
  match searchTuple [true, false] seg with
  | some [g1, g2] => some { identifier := g1, serial_number := g2 }
  | _ => none

-- ── List-level parsers (string → typed objects) ─────────────────────────

/-- Shared list-parsing skeleton: a falsy (null / undefined / empty) raw
value parses to `[]`; otherwise split on `;`, drop blank segments, parse each
remaining segment, silently dropping segments that match no pattern. -/
def parseStackList {α : Type} (p : List Char → Option α) (raw : Option String) :
    List α :=
  match raw with
  | none => []
  | some r =>
    if r = "" then []
    else ((splitSemi r.toList).filter segmentKeep).filterMap p

def parseStackReplacements (raw : Option String) : List StackReplacement :=
  parseStackList parseReplacementSegment raw

def parseStackInspections (raw : Option String) : List StackInspection :=
  parseStackList parseInspectionSegment raw

def parseStackTensioning (raw : Option String) : List StackTensioning :=
  parseStackList parseTensioningSegment raw

def parseStackInstalls (raw : Option String) : List StackInstall :=
  parseStackList parseInstallSegment raw

-- ── Serialization (typed objects → string) ──────────────────────────────

/-- JS boolean-to-string interpolation used by the serializers. -/
def boolStr (b : Bool) : String := if b then "true" else "false"

/-- One quoted field of a serialized tuple. -/
def renderField (s : String) : List Char := qc :: (s.toList ++ [qc])

/-- Intercalate a separator character between chunks. -/
def sepBy (sep : Char) : List (List Char) → List Char
  | [] => []
  | x :: xs =>
    match xs with
    | [] => x
    | _ :: _ => x ++ sep :: sepBy sep xs

/-- A serialized tuple `(f1-quoted,f2-quoted,...)`. -/
def renderTuple (fields : List String) : List Char :=
  '(' :: (sepBy ',' (fields.map renderField) ++ [')'])

def replacementTuple (i : StackReplacement) : List Char :=
  renderTuple [i.identifier, i.removed_serial_number, i.added_serial_number,
               i.stack_symptom, boolStr i.stack_symptom_confirmed]

def inspectionTuple (i : StackInspection) : List Char :=
  renderTuple [i.identifier, i.serial_number, i.insight, boolStr i.completed]

def tensioningTuple (i : StackTensioning) : List Char :=
  renderTuple [i.identifier, i.serial_number, i.insight, boolStr i.completed]

def installTuple (i : StackInstall) : List Char :=
  renderTuple [i.identifier, i.serial_number]

/-- Mirrors `items.map(tuple).join(";") + ";"`. -/
def serializeTuples {α : Type} (tup : α → List Char) (items : List α) : String :=
  String.mk (sepBy ';' (items.map tup) ++ [';'])

def serializeStackReplacements (items : List StackReplacement) : String :=
  serializeTuples replacementTuple items

def serializeStackInspections (items : List StackInspection) : String :=
  serializeTuples inspectionTuple items

def serializeStackTensioning (items : List StackTensioning) : String :=
  serializeTuples tensioningTuple items

def serializeStackInstalls (items : List StackInstall) : String :=
  serializeTuples installTuple items

-- ── JS value model (form values, record patches) ────────────────────────

/-- Small model of the JavaScript values flowing through the form handlers:
`jnull` / `jundefined` are `null` / `undefined`, `jnan` is the `NaN` number
produced by `toMillis()` on an invalid DateTime, `jarr` / `jobj` are arrays
and plain objects. -/
inductive JVal where
  | jnull
  | jundefined
  | jbool (b : Bool)
  | jnum (n : Int)
  | jnan
  | jstr (s : String)
  | jarr (items : List JVal)
  | jobj (fields : List (String × JVal))
  deriving Repr

/-- JavaScript truthiness. -/
def truthy : JVal → Bool
  | .jnull => false
  | .jundefined => false
  | .jbool b => b
  | .jnum n => n != 0
  | .jnan => false
  | .jstr s => s != ""
  | .jarr _ => true
  | .jobj _ => true

/-- Read a property of a JS object (association list; keys are unique). -/
def jget (fields : List (String × JVal)) (k : String) : Option JVal :=
  (fields.find? (fun kv => kv.fst == k)).map (fun kv => kv.snd)

/-- JS `x[k] || ""` for a string-typed form slot (the dialog stores strings
in these slots; a missing or empty value reads as the empty string). -/
def jstrOrEmpty (v : Option JVal) : String :=
  match v with
  | some (.jstr s) => s
  | _ => ""

/-- JS `!!x[k]`. -/
def jtruthy (v : Option JVal) : Bool :=
  match v with
  | some x => truthy x
  | none => false

/-- JS `value[k] || {}` used to read a nested group; property reads on any
non-object (string, boolean, …) yield `undefined`, so any non-object behaves
as the empty group for the subsequent key lookups. -/
def jgroupOf (v : Option JVal) : List (String × JVal) :=
  match v with
  | some (.jobj fields) => fields
  | _ => []

/-- JS `x || null`. -/
def jsOrNull (v : Option JVal) : JVal :=
  match v with
  | some x => if truthy x then x else .jnull
  | none => .jnull

/-- The raw submitted form-value tree. -/
abbrev FormValue : Type := List (String × JVal)

/-- A partial Note record patch, as handed to the persistence service. -/
abbrev Patch : Type := List (String × JVal)

-- ── Form-value extraction (stack-data.utils.ts) ─────────────────────────

def extractStackReplacementsFromForm (value : FormValue) (stackCount : Nat) :
    List StackReplacement :=
  (getStackIdentifiers stackCount).filterMap (fun id =>
    let group := jgroupOf (jget value ("stack_group_" ++ id))
    let removed := jstrOrEmpty (jget group ("removed_serial_number_" ++ id))
    let added := jstrOrEmpty (jget group ("added_serial_number_" ++ id))
    let symptom := jstrOrEmpty (jget group ("stack_symptom_" ++ id))
    let confirmed := jtruthy (jget group ("stack_symptom_confirmed_" ++ id))
    if removed != "" || added != "" then
      some { identifier := id, removed_serial_number := removed,
             added_serial_number := added, stack_symptom := symptom,
             stack_symptom_confirmed := confirmed }
    else none)

def extractStackInspectionsFromForm (value : FormValue) (stackCount : Nat) :
    List StackInspection :=
  (getStackIdentifiers stackCount).filterMap (fun id =>
    let group := jgroupOf (jget value ("stack_group_inspection_" ++ id))
    let serial := jstrOrEmpty (jget group ("stack_serial_number_" ++ id))
    let insight := jstrOrEmpty (jget group ("insight_" ++ id))
    let completed := jtruthy (jget group ("stack_completed_" ++ id))
    if serial != "" || insight != "" then
      some { identifier := id, serial_number := serial, insight := insight,
             completed := completed }
    else none)

def extractStackTensioningFromForm (value : FormValue) (stackCount : Nat) :
    List StackTensioning :=
  (getStackIdentifiers stackCount).filterMap (fun id =>
    let group := jgroupOf (jget value ("stack_group_tensioning_" ++ id))
    let serial := jstrOrEmpty (jget group ("stack_serial_number_" ++ id))
    let insight := jstrOrEmpty (jget group ("insight_" ++ id))
    let completed := jtruthy (jget group ("stack_completed_" ++ id))
    if serial != "" || insight != "" then
      some { identifier := id, serial_number := serial, insight := insight,
             completed := completed }
    else none)

def extractStackInstallsFromForm (value : FormValue) (stackCount : Nat) :
    List StackInstall :=
  (getStackIdentifiers stackCount).filterMap (fun id =>
    let group := jgroupOf (jget value ("stack_group_installs_" ++ id))
    let serial := jstrOrEmpty (jget group ("stack_serial_number_" ++ id))
    if serial != "" then
      some { identifier := id, serial_number := serial }
    else none)

-- ── Category registry (category-registry.ts) ────────────────────────────

/-- JS `typeof item === "string" ? item : item.tag_number` (access on a
non-string non-object yields `undefined`). -/
def tagItemToString : JVal → JVal
  | .jstr s => .jstr s
  | .jobj fields =>
    (match jget fields "tag_number" with
     | some w => w
     | none => .jundefined)
  | _ => .jundefined

/-- The `tag_numbers` patch entry shared by Calibration and Settings change:
an array input is mapped item-wise to strings, anything else becomes null. -/
def tagNumbersPatchValue (v : Option JVal) : JVal :=
  match v with
  | some (.jarr items) => .jarr (items.map tagItemToString)
  | _ => .jnull

/-- The part of a `CategoryConfig` that the verified claims exercise: the
registry metadata plus the `validate` and `serializeFormValue` operations.
The helper context argument is reduced to the active stack count, the only
helper datum these two operations consult. -/
structure CategoryConfig where
  value : String
  label : String
  internalOnly : Bool
  validate : Option (FormValue → Nat → Option String)
  serializeFormValue : FormValue → Nat → Patch

def calibration : CategoryConfig where
  value := "Calibration"
  label := "Calibration"
  internalOnly := false
  validate := none
  serializeFormValue := fun value _ =>
    [("tag_numbers", tagNumbersPatchValue (jget value "tag_numbers"))]

def softwareUpdate : CategoryConfig where
  value := "Software update"
  label := "Software update"
  internalOnly := false
  validate := none
  serializeFormValue := fun value _ =>
    [("software_type", jsOrNull (jget value "software_type")),
     ("version", jsOrNull (jget value "version"))]

def settingsChange : CategoryConfig where
  value := "Settings change"
  label := "Settings change"
  internalOnly := false
  validate := none
  serializeFormValue := fun value _ =>
    [("tag_numbers", tagNumbersPatchValue (jget value "tag_numbers"))]

def stackReplacements : CategoryConfig where
  value := "Stack replacements"
  label := "Stack replacements"
  internalOnly := true
  validate := some (fun value n =>
    if (extractStackReplacementsFromForm value n).length = 0 then
      some "At least one stack replacement must be filled in."
    else none)
  serializeFormValue := fun value n =>
    let items := extractStackReplacementsFromForm value n
    [("workorder_id", jsOrNull (jget value "workorder_id")),
     ("stack_replacements",
      if items.length > 0 then .jstr (serializeStackReplacements items)
      else .jnull)]

def stackInspection : CategoryConfig where
  value := "Stack inspection"
  label := "Stack visual inspection"
  internalOnly := true
  validate := some (fun value n =>
    if (extractStackInspectionsFromForm value n).length = 0 then
      some "At least one stack inspection must be filled in."
    else none)
  serializeFormValue := fun value n =>
    let items := extractStackInspectionsFromForm value n
    [("stack_inspections",
      if items.length > 0 then .jstr (serializeStackInspections items)
      else .jnull)]

def stackTensioning : CategoryConfig where
  value := "Stack tensioning"
  label := "Stack tensioning"
  internalOnly := true
  validate := some (fun value n =>
    if (extractStackTensioningFromForm value n).length = 0 then
      some "At least one stack tensioning must be filled in."
    else none)
  serializeFormValue := fun value n =>
    let items := extractStackTensioningFromForm value n
    [("stack_tensioning",
      if items.length > 0 then .jstr (serializeStackTensioning items)
      else .jnull)]

def stackInstalls : CategoryConfig where
  value := "Stack installs"
  label := "Stack installs"
  internalOnly := true
  validate := some (fun value n =>
    if (extractStackInstallsFromForm value n).length = 0 then
      some "At least one stack install must be filled in."
    else none)
  serializeFormValue := fun value n =>
    let items := extractStackInstallsFromForm value n
    [("stack_installs",
      if items.length > 0 then .jstr (serializeStackInstalls items)
      else .jnull)]

def otherCategory : CategoryConfig where
  value := "Other"
  label := "Other"
  internalOnly := false
  validate := none
  serializeFormValue := fun _ _ => []

/-- All category configurations, in display/registration order. -/
def CATEGORY_CONFIGS : List CategoryConfig :=
  [calibration, softwareUpdate, settingsChange, stackReplacements,
   stackInspection, stackTensioning, stackInstalls, otherCategory]

/-- Mirrors `getCategoryConfig`: a falsy key yields no config, otherwise an
exact-match lookup in the registry (keys are unique, so the first match is
the map entry). -/
def getCategoryConfig (noteCategory : Option String) : Option CategoryConfig :=
  match noteCategory with
  | some k =>
    if k = "" then none else CATEGORY_CONFIGS.find? (fun c => c.value == k)
  | none => none

/-- Mirrors `getCategoryOptions`: registry order, dropping internal-only
configs for non-elevated users. -/
def getCategoryOptions (isPlugPowerUser : Bool) : List (String × String) :=
  (CATEGORY_CONFIGS.filter (fun c => isPlugPowerUser || !c.internalOnly)).map
    (fun c => (c.value, c.label))

-- ── Object.assign on patches ────────────────────────────────────────────

/-- Set one key of a JS object: overwrite in place when present, append
otherwise. -/
def setKey (p : Patch) (k : String) (v : JVal) : Patch :=
  if p.any (fun kv => kv.fst == k) then
    p.map (fun kv => if kv.fst == k then (k, v) else kv)
  else p ++ [(k, v)]

/-- `Object.assign(p, q)`: copy every entry of `q` onto `p`, left to right. -/
def assignAll (p : Patch) (q : Patch) : Patch :=
  q.foldl (fun acc kv => setKey acc kv.fst kv.snd) p

-- ── Form-handler flows (add / edit / recategorize) ──────────────────────

/-- `DateTime.fromISO(x)` followed by `toMillis()`, with the external luxon
parser abstracted as `iso : String → Option Int` (`some` = a valid instant
and its epoch-millisecond value).  Only strings can parse. -/
def parseISOMillis (iso : String → Option Int) (v : Option JVal) : Option Int :=
  match v with
  | some (.jstr s) => iso s
  | _ => none

/-- The `external_note` patch entry shared by the add and recategorize
handlers: `isPlugPowerUser ? (value.external_note ?? false) : true`. -/
def externalNoteValue (isPP : Bool) (value : FormValue) : JVal :=
  if isPP then
    match jget value "external_note" with
    | some .jnull => .jbool false
    | some .jundefined => .jbool false
    | some v => v
    | none => .jbool false
  else .jbool true

/-- `config?.validate` invocation: no config or no validate capability means
no validation error. -/
def cfgValidationError (cfg : Option CategoryConfig) (value : FormValue)
    (n : Nat) : Option String :=
  match cfg with
  | some c =>
    match c.validate with
    | some v => v value n
    | none => none
  | none => none

/-- The note patch built by `handleAddNote` after validation passes:
base fields, the category serialization, the parse-checked `performed_on`,
then every remaining submitted entry except `performed_on` and
`external_note`. -/
def buildAddPatch (category : String) (value : FormValue) (isPP : Bool)
    (n : Nat) (iso : String → Option Int) : Patch :=
  let base : Patch :=
    [("note_category", JVal.jstr category),
     ("external_note", externalNoteValue isPP value)]
  let p1 :=
    match getCategoryConfig (some category) with
    | some cfg => assignAll base (cfg.serializeFormValue value n)
    | none => base
  let pv := jget value "performed_on"
  let p2 :=
    if jtruthy pv then
      match parseISOMillis iso pv with
      | some m => setKey p1 "performed_on" (.jnum m)
      | none => p1
    else p1
  let rest := value.filter
    (fun kv => kv.fst != "performed_on" && kv.fst != "external_note")
  assignAll p2 rest

/-- The note patch built by `handleEditNote`: every submitted entry except
`performed_on`, then `performed_on` converted without a validity check
(`toMillis()` of an invalid DateTime is `NaN`), the `tag_numbers` array
transform, and the category serialization. -/
def buildEditPatch (note_category : Option String) (value : FormValue)
    (n : Nat) (iso : String → Option Int) : Patch :=
  let p0 := value.filter (fun kv => kv.fst != "performed_on")
  let pv := jget value "performed_on"
  let p1 :=
    if jtruthy pv then
      setKey p0 "performed_on"
        (match parseISOMillis iso pv with
         | some m => .jnum m
         | none => .jnan)
    else p0
  let p2 :=
    match jget p1 "tag_numbers" with
    | some (.jarr items) =>
      setKey p1 "tag_numbers" (.jarr (items.map tagItemToString))
    | _ => p1
  match getCategoryConfig note_category with
  | some cfg => assignAll p2 (cfg.serializeFormValue value n)
  | none => p2

/-- `updatedNote.k = updatedNote.k ?? null`: a missing, `undefined` or
`null` entry becomes an explicit null entry; any other value is kept. -/
def applyNullDefault (p : Patch) (k : String) : Patch :=
  setKey p k
    (match jget p k with
     | some .jnull => .jnull
     | some .jundefined => .jnull
     | some v => v
     | none => .jnull)

/-- The part of the `handleRecategorizeNote` patch built before the
null-reset block: base fields, the parse-checked `performed_on`, the
`tag_numbers` transform, the new category's serialization, and the
submitted text. -/
def buildRecatPatchCore (newCategory : String) (value : FormValue)
    (isPP : Bool) (n : Nat) (iso : String → Option Int) : Patch :=
  let base : Patch :=
    [("note_category", JVal.jstr newCategory),
     ("external_note", externalNoteValue isPP value)]
  let pv := jget value "performed_on"
  let p1 :=
    if jtruthy pv then
      match parseISOMillis iso pv with
      | some m => setKey base "performed_on" (.jnum m)
      | none => base
    else base
  let p2 :=
    match jget value "tag_numbers" with
    | some (.jarr items) =>
      setKey p1 "tag_numbers" (.jarr (items.map tagItemToString))
    | _ => p1
  let p3 :=
    match getCategoryConfig (some newCategory) with
    | some cfg => assignAll p2 (cfg.serializeFormValue value n)
    | none => p2
  match jget value "text" with
  | some .jundefined => p3
  | some v => setKey p3 "text" v
  | none => p3

/-- The note patch built by `handleRecategorizeNote` after validation
passes: the core patch followed by the unconditional null-reset of every
category-owned field, in source order. -/
def buildRecatPatch (newCategory : String) (value : FormValue) (isPP : Bool)
    (n : Nat) (iso : String → Option Int) : Patch :=
  let p4 := buildRecatPatchCore newCategory value isPP n iso
  let p5 := applyNullDefault p4 "tag_numbers"
  let p6 := applyNullDefault p5 "software_type"
  let p7 := applyNullDefault p6 "version"
  let p8 := applyNullDefault p7 "stack_replacements"
  let p9 := applyNullDefault p8 "workorder_id"
  let p10 := applyNullDefault p9 "stack_inspections"
  let p11 := applyNullDefault p10 "stack_installs"
  applyNullDefault p11 "stack_tensioning"

/-- Externally observable side effects of one flow step. -/
inductive FlowEvent where
  | alertDialog (msg : String)
  | serviceAdd (patch : Patch)
  | serviceEdit (id : String) (patch : Patch)

/-- States of the `handleAddNote` while-loop. -/
inductive AddStep where
  | selectCategory
  | fillNote (category : String)
  | exitFlow
  deriving Repr, DecidableEq

/-- One pass of the `handleAddNote` loop body at the note-filling step, with
the dialog result supplied (`none` = cancelled): cancelling returns to the
category step; a validation error raises an alert and leaves the step
unchanged (`continue`); success persists the patch and exits. -/
def addNoteSubmit (category : String) (resp : Option FormValue) (isPP : Bool)
    (n : Nat) (iso : String → Option Int) : AddStep × List FlowEvent :=
  match resp with
  | none => (AddStep.selectCategory, [])
  | some value =>
    match cfgValidationError (getCategoryConfig (some category)) value n with
    | some err => (AddStep.fillNote category, [FlowEvent.alertDialog err])
    | none =>
      (AddStep.exitFlow,
       [FlowEvent.serviceAdd (buildAddPatch category value isPP n iso)])

/-- States of the `handleEditNote` dialog: it is opened once; every submit
or cancel path falls through to the end of the handler. -/
inductive EditStep where
  | editDialog
  | closed
  deriving Repr, DecidableEq

/-- Outcome of the single `handleEditNote` dialog: cancelling has no side
effect; a validation error raises an alert and the handler returns without
re-opening the dialog; success persists the patch. -/
def editNoteSubmit (noteId : String) (note_category : Option String)
    (resp : Option FormValue) (n : Nat) (iso : String → Option Int) :
    EditStep × List FlowEvent :=
  match resp with
  | none => (EditStep.closed, [])
  | some value =>
    match cfgValidationError (getCategoryConfig note_category) value n with
    | some err => (EditStep.closed, [FlowEvent.alertDialog err])
    | none =>
      (EditStep.closed,
       [FlowEvent.serviceEdit noteId (buildEditPatch note_category value n iso)])

/-- States of the `handleRecategorizeNote` while-loop. -/
inductive RecatStep where
  | selectNewCategory
  | fillNewFields (newCategory : String)
  | exitFlow
  deriving Repr, DecidableEq

/-- One pass of the `handleRecategorizeNote` loop body at the fill step:
cancelling returns to the category-selection step; a validation error raises
an alert and leaves the step unchanged (`continue`); success persists the
patch and exits. -/
def recategorizeSubmit (noteId : String) (newCategory : String)
    (resp : Option FormValue) (isPP : Bool) (n : Nat)
    (iso : String → Option Int) : RecatStep × List FlowEvent :=
  match resp with
  | none => (RecatStep.selectNewCategory, [])
  | some value =>
    match cfgValidationError (getCategoryConfig (some newCategory)) value n with
    | some err =>
      (RecatStep.fillNewFields newCategory, [FlowEvent.alertDialog err])
    | none =>
      (RecatStep.exitFlow,
       [FlowEvent.serviceEdit noteId
         (buildRecatPatch newCategory value isPP n iso)])

-- ── Well-formedness predicates used by the claims ───────────────────────

/-- No single-quote character in the string: the well-formedness
condition the spec states for field values. -/
def quoteFree (s : String) : Bool := s.toList.all (fun c => c != qc)

/-- No semicolon in the string: needed in addition for the codec round
trip, because `;` is the tuple separator. -/
def semiFree (s : String) : Bool := s.toList.all (fun c => c != ';')

/-- Identifier drawn from the fixed alphabet `{a..e}`. -/
def idOk (s : String) : Bool := ALL_STACK_IDENTIFIERS.contains s

-- ── Basic string lemmas ─────────────────────────────────────────────────

theorem mk_eq_empty_iff (data : List Char) : String.mk data = "" ↔ data = [] := by
  constructor
  · intro h
    have h2 := congrArg String.toList h
    simpa using h2
  · intro h
    subst h
    rfl

theorem serializeTuples_ne_empty {α : Type} (tup : α → List Char)
    (items : List α) : serializeTuples tup items ≠ "" := by
  unfold serializeTuples
  rw [Ne, mk_eq_empty_iff]
  simp

-- ── Matcher lemmas ──────────────────────────────────────────────────────

theorem takeWhile_nq_append (l rest : List Char)
    (h : ∀ c ∈ l, (c != qc) = true) :
    (l ++ qc :: rest).takeWhile (fun d => d != qc) = l := by
  induction l with
  | nil => simp [List.takeWhile_cons]
  | cons c cs ih =>
    have hc := h c (by simp)
    simp only [List.cons_append, List.takeWhile_cons, hc, if_true]
    rw [ih (fun d hd => h d (by simp [hd]))]

theorem dropWhile_nq_append (l rest : List Char)
    (h : ∀ c ∈ l, (c != qc) = true) :
    (l ++ qc :: rest).dropWhile (fun d => d != qc) = qc :: rest := by
  induction l with
  | nil => simp [List.dropWhile_cons]
  | cons c cs ih =>
    have hc := h c (by simp)
    simp only [List.cons_append, List.dropWhile_cons, hc, if_true]
    exact ih (fun d hd => h d (by simp [hd]))

theorem matchOneField_renderField (req : Bool) (s : String) (rest : List Char)
    (h : quoteFree s = true) (hreq : req = true → s ≠ "") :
    matchOneField req (renderField s ++ rest) = some (s, rest) := by
  have hall : ∀ c ∈ s.toList, (c != qc) = true := by
    simpa [quoteFree, List.all_eq_true] using h
  have hL : renderField s ++ rest = qc :: (s.toList ++ qc :: rest) := by
    simp [renderField]
  rw [hL]
  show (if qc = qc then
          match (s.toList ++ qc :: rest).dropWhile (fun d => d != qc) with
          | [] => none
          | _ :: rest2 =>
            if req && ((s.toList ++ qc :: rest).takeWhile
                (fun d => d != qc)).isEmpty then none
            else some (String.mk ((s.toList ++ qc :: rest).takeWhile
                (fun d => d != qc)), rest2)
        else none) = some (s, rest)
  rw [if_pos rfl, dropWhile_nq_append _ _ hall]
  show (if req && ((s.toList ++ qc :: rest).takeWhile
          (fun d => d != qc)).isEmpty then none
        else some (String.mk ((s.toList ++ qc :: rest).takeWhile
          (fun d => d != qc)), rest)) = some (s, rest)
  rw [takeWhile_nq_append _ _ hall]
  cases req with
  | false => simp
  | true =>
    have hs : s.toList ≠ [] := by
      intro hnil
      apply hreq rfl
      have := congrArg String.mk hnil
      simpa using this
    have hs2 : s.data ≠ [] := hs
    simp [List.isEmpty_iff, hs2]

/-- Side condition linking a group quantifier to the rendered field: the
field must be quote-free, and non-empty when the group is `+`-quantified. -/
def fieldOkFor (req : Bool) (s : String) : Prop :=
  quoteFree s = true ∧ (req = true → s ≠ "")

theorem sepBy_singleton (sep : Char) (x : List Char) :
    sepBy sep [x] = x := rfl

theorem sepBy_cons_cons (sep : Char) (x y : List Char) (ys : List (List Char)) :
    sepBy sep (x :: y :: ys) = x ++ sep :: sepBy sep (y :: ys) := rfl

theorem matchFieldSeq_render {reqs : List Bool} {fs : List String}
    (h : List.Forall₂ fieldOkFor reqs fs) (hne : fs ≠ []) (rest : List Char) :
    matchFieldSeq reqs (sepBy ',' (fs.map renderField) ++ ')' :: rest) =
      some fs := by
  induction h with
  | nil => exact absurd rfl hne
  | @cons req s reqs2 fs2 hhead htail ih =>
    cases htail with
    | nil =>
      rw [List.map_cons, List.map_nil, sepBy_singleton, matchFieldSeq,
          matchOneField_renderField req s (')' :: rest) hhead.1 hhead.2]
      rfl
    | @cons req2 s2 reqs3 fs3 hhead2 htail2 =>
      rw [List.map_cons, List.map_cons, sepBy_cons_cons]
      have harr : (renderField s ++
          ',' :: sepBy ',' (renderField s2 :: fs3.map renderField)) ++ ')' :: rest =
          renderField s ++ ',' ::
            (sepBy ',' (renderField s2 :: fs3.map renderField) ++ ')' :: rest) := by
        simp
      rw [harr, matchFieldSeq,
          matchOneField_renderField req s _ hhead.1 hhead.2]
      have ih2 := ih (by simp)
      rw [List.map_cons] at ih2
      show Option.map (fun gs => s :: gs)
        (matchFieldSeq (req2 :: reqs3)
          (sepBy ',' (renderField s2 :: fs3.map renderField) ++ ')' :: rest)) =
        some (s :: s2 :: fs3)
      rw [ih2]
      rfl

theorem matchTupleAt_render {reqs : List Bool} {fs : List String}
    (h : List.Forall₂ fieldOkFor reqs fs) (hne : fs ≠ []) (rest : List Char) :
    matchTupleAt reqs (renderTuple fs ++ rest) = some fs := by
  have hL : renderTuple fs ++ rest =
      '(' :: (sepBy ',' (fs.map renderField) ++ ')' :: rest) := by
    simp [renderTuple]
  rw [hL, matchTupleAt]
  exact matchFieldSeq_render h hne rest

theorem searchTuple_render {reqs : List Bool} {fs : List String}
    (h : List.Forall₂ fieldOkFor reqs fs) (hne : fs ≠ []) (rest : List Char) :
    searchTuple reqs (renderTuple fs ++ rest) = some fs := by
  have hL : renderTuple fs ++ rest =
      '(' :: (sepBy ',' (fs.map renderField) ++ ')' :: rest) := by
    simp [renderTuple]
  rw [hL, searchTuple]
  have hm : matchTupleAt reqs
      ('(' :: (sepBy ',' (fs.map renderField) ++ ')' :: rest)) = some fs := by
    rw [← hL]
    exact matchTupleAt_render h hne rest
  rw [hm]

-- ── splitSemi lemmas ────────────────────────────────────────────────────

theorem splitSemi_append (l rest : List Char) (h : ∀ c ∈ l, c ≠ ';') :
    splitSemi (l ++ ';' :: rest) = l :: splitSemi rest := by
  induction l with
  | nil => simp [splitSemi]
  | cons c cs ih =>
    have hc : c ≠ ';' := h c (by simp)
    have ih2 := ih (fun d hd => h d (by simp [hd]))
    show splitSemi (c :: (cs ++ ';' :: rest)) = (c :: cs) :: splitSemi rest
    rw [splitSemi, if_neg hc, ih2]

theorem splitSemi_no_semi (l : List Char) (h : ∀ c ∈ l, c ≠ ';') :
    splitSemi l = [l] := by
  induction l with
  | nil => rfl
  | cons c cs ih =>
    have hc : c ≠ ';' := h c (by simp)
    have ih2 := ih (fun d hd => h d (by simp [hd]))
    simp only [splitSemi, if_neg hc, ih2]

-- ── Character membership in rendered tuples ─────────────────────────────

theorem mem_sepBy {sep : Char} {c : Char} :
    ∀ {ls : List (List Char)}, c ∈ sepBy sep ls →
      c = sep ∨ ∃ l ∈ ls, c ∈ l := by
  intro ls
  induction ls with
  | nil => intro h; cases h
  | cons x xs ih =>
    intro h
    cases xs with
    | nil =>
      simp only [sepBy] at h
      right
      exact ⟨x, by simp, h⟩
    | cons y ys =>
      simp only [sepBy, List.mem_append, List.mem_cons] at h
      rcases h with hx | hsep | hrest
      · right; exact ⟨x, by simp, hx⟩
      · left; exact hsep
      · rcases ih hrest with hc | ⟨l, hl, hcl⟩
        · left; exact hc
        · right; exact ⟨l, by simp [hl], hcl⟩

theorem mem_renderField {c : Char} {s : String} (h : c ∈ renderField s) :
    c = qc ∨ c ∈ s.toList := by
  simp only [renderField, List.mem_cons, List.mem_append] at h
  rcases h with h | h | h
  · left; exact h
  · right; exact h
  · left; simpa using h

theorem renderTuple_no_semi {fs : List String}
    (h : ∀ s ∈ fs, semiFree s = true) :
    ∀ c ∈ renderTuple fs, c ≠ ';' := by
  intro c hc
  simp only [renderTuple, List.mem_cons, List.mem_append] at hc
  rcases hc with hc | hc | hc
  · subst hc; decide
  · rcases mem_sepBy hc with hsep | ⟨l, hl, hcl⟩
    · subst hsep; decide
    · rcases List.mem_map.mp hl with ⟨s, hs, hren⟩
      subst hren
      rcases mem_renderField hcl with hq | hmem
      · subst hq; decide
      · have := h s hs
        simp only [semiFree, List.all_eq_true] at this
        have hb := this c hmem
        simpa using hb
  · rcases hc with hc | hc
    · subst hc; decide
    · cases hc

theorem segmentKeep_renderTuple (fs : List String) :
    segmentKeep (renderTuple fs) = true := by
  show (!(List.dropWhile (fun c => c.isWhitespace)
      ('(' :: (sepBy ',' (fs.map renderField) ++ [')']))).isEmpty) = true
  rw [List.dropWhile_cons,
      if_neg (by decide : ¬(('(' : Char).isWhitespace = true))]
  rfl

-- ── Quote-counting lemmas ───────────────────────────────────────────────

theorem dropWhile_head_not {p : Char → Bool} :
    ∀ {l : List Char} {x : Char} {xs : List Char},
      l.dropWhile p = x :: xs → p x = false := by
  intro l
  induction l with
  | nil => intro x xs h; cases h
  | cons c cs ih =>
    intro x xs h
    rw [List.dropWhile_cons] at h
    by_cases hp : p c
    · rw [if_pos hp] at h; exact ih h
    · rw [if_neg hp] at h
      injection h with h1 h2
      subst h1
      simpa using hp

theorem count_qc_matchOneField {req : Bool} {cs : List Char} {f : String}
    {rest : List Char} (h : matchOneField req cs = some (f, rest)) :
    2 + rest.count qc ≤ cs.count qc := by
  cases cs with
  | nil => simp [matchOneField] at h
  | cons c tail =>
    rw [matchOneField.eq_def] at h
    split at h
    · rename_i heq
      cases heq
    · rename_i c2 tail2 heq
      injection heq with hc2 htail2
      subst hc2
      subst htail2
      split at h
      · rename_i hc
        split at h
        · cases h
        · rename_i x rest2 hdw
          split at h
          · cases h
          · simp only [Option.some.injEq, Prod.mk.injEq] at h
            obtain ⟨hf, hrest⟩ := h
            have hx : x = qc := by
              have hd := dropWhile_head_not hdw
              simpa using hd
            have htl : tail =
                tail.takeWhile (fun d => d != qc) ++ (x :: rest2) := by
              conv_lhs => rw [← List.takeWhile_append_dropWhile
                (fun d => d != qc) tail]
              rw [hdw]
            subst hc
            subst hx
            rw [hrest] at htl
            conv_rhs => rw [htl]
            simp [List.count_cons, List.count_append]
            omega
      · cases h

theorem count_qc_matchFieldSeq :
    ∀ {reqs : List Bool} {cs : List Char} {fs : List String},
      matchFieldSeq reqs cs = some fs → 2 * reqs.length ≤ cs.count qc := by
  intro reqs
  induction reqs with
  | nil => intro cs fs h; simp [matchFieldSeq] at h
  | cons req reqs2 ih =>
    intro cs fs h
    rw [matchFieldSeq] at h
    split at h
    · cases h
    · rename_i f rest heq
      have h1 := count_qc_matchOneField heq
      cases reqs2 with
      | nil =>
        simp only [List.length_cons, List.length_nil]
        omega
      | cons r2 rs2 =>
        split at h
        · rename_i hcontra
          exact absurd hcontra (by simp)
        · split at h
          · rename_i rest0 rest2
            cases hm2 : matchFieldSeq (r2 :: rs2) rest2 with
            | none => rw [hm2] at h; cases h
            | some fs2 =>
              have h2 := ih hm2
              have hc1 : ((',' : Char) == qc) = false := by decide
              have hc2 : (qc == (',' : Char)) = false := by decide
              have hcr : (',' :: rest2).count qc = rest2.count qc := by
                simp [List.count_cons, hc1, hc2]
              simp only [List.length_cons] at h2 ⊢
              omega
          · cases h

theorem count_qc_matchTupleAt {reqs : List Bool} {cs : List Char}
    {fs : List String} (h : matchTupleAt reqs cs = some fs) :
    2 * reqs.length ≤ cs.count qc := by
  rw [matchTupleAt.eq_def] at h
  split at h
  · have h2 := count_qc_matchFieldSeq h
    rw [List.count_cons]
    omega
  · cases h

theorem count_qc_searchTuple :
    ∀ {cs : List Char} {reqs : List Bool} {fs : List String},
      searchTuple reqs cs = some fs → 2 * reqs.length ≤ cs.count qc := by
  intro cs
  induction cs with
  | nil => intro reqs fs h; simp [searchTuple] at h
  | cons c rest ih =>
    intro reqs fs h
    rw [searchTuple] at h
    split at h
    · rename_i fs2 heq
      exact count_qc_matchTupleAt heq
    · have h2 := ih h
      have hle : rest.count qc ≤ (c :: rest).count qc := by
        rw [List.count_cons]
        exact Nat.le_add_right _ _
      omega

theorem count_qc_renderField (s : String) (h : quoteFree s = true) :
    (renderField s).count qc = 2 := by
  have hz : s.toList.count qc = 0 := by
    rw [List.count_eq_zero]
    intro hmem
    have hq := (List.all_eq_true.mp h) qc hmem
    simp at hq
  have hz2 : List.count qc s.data = 0 := hz
  simp [renderField, List.count_append, List.count_cons, hz, hz2]

theorem count_qc_sepBy_map (fs : List String)
    (h : ∀ s ∈ fs, quoteFree s = true) :
    (sepBy ',' (fs.map renderField)).count qc = 2 * fs.length := by
  induction fs with
  | nil => rfl
  | cons s fs2 ih =>
    cases fs2 with
    | nil =>
      rw [List.map_cons, List.map_nil, sepBy_singleton,
          count_qc_renderField s (h s (by simp))]
      rfl
    | cons s2 fs3 =>
      rw [List.map_cons, List.map_cons, sepBy_cons_cons]
      have ih2 := ih (fun t ht => h t (by simp [ht]))
      rw [List.map_cons] at ih2
      have hcomma : ((',' : Char) == qc) = false := by decide
      simp [List.count_append, List.count_cons, hcomma,
            count_qc_renderField s (h s (by simp)), ih2]
      omega

theorem count_qc_renderTuple (fs : List String)
    (h : ∀ s ∈ fs, quoteFree s = true) :
    (renderTuple fs).count qc = 2 * fs.length := by
  have hop : (('(' : Char) == qc) = false := by decide
  have hcp : ((')' : Char) == qc) = false := by decide
  simp [renderTuple, List.count_cons, List.count_append, hop, hcp,
        count_qc_sepBy_map fs h]

theorem searchTuple4_renderTuple3_none (f1 f2 f3 : String)
    (h1 : quoteFree f1 = true) (h2 : quoteFree f2 = true)
    (h3 : quoteFree f3 = true) :
    searchTuple [true, false, false, true] (renderTuple [f1, f2, f3]) =
      none := by
  cases hs : searchTuple [true, false, false, true]
      (renderTuple [f1, f2, f3]) with
  | none => rfl
  | some fs =>
    exfalso
    have hle := count_qc_searchTuple hs
    rw [count_qc_renderTuple [f1, f2, f3]
      (by intro s hsm; simp at hsm; rcases hsm with rfl | rfl | rfl <;>
          assumption)] at hle
    simp at hle

-- ── Well-formed field facts ─────────────────────────────────────────────

/-- A well-formed field for the amended round-trip claim: no quote and no
semicolon. -/
def wfStr (s : String) : Bool := quoteFree s && semiFree s

theorem idOk_props (s : String) (h : idOk s = true) :
    s ≠ "" ∧ quoteFree s = true ∧ semiFree s = true := by
  have h5 : s = "a" ∨ s = "b" ∨ s = "c" ∨ s = "d" ∨ s = "e" := by
    simpa [idOk, ALL_STACK_IDENTIFIERS, List.contains] using h
  rcases h5 with rfl | rfl | rfl | rfl | rfl <;>
    exact ⟨by decide, by decide, by decide⟩

theorem boolStr_props (b : Bool) :
    boolStr b ≠ "" ∧ quoteFree (boolStr b) = true ∧
      semiFree (boolStr b) = true := by
  cases b <;> exact ⟨by decide, by decide, by decide⟩

theorem boolStr_beq_true (b : Bool) : (boolStr b == "true") = b := by
  cases b <;> decide

theorem mem_toList_ne_semi {s : String} (h : semiFree s = true) :
    ∀ c ∈ s.toList, c ≠ ';' := by
  intro c hc
  have hb := (List.all_eq_true.mp h) c hc
  simpa using hb

-- ── Per-shape segment lemmas ────────────────────────────────────────────

theorem parseReplacementSegment_tuple (i : StackReplacement)
    (hid : idOk i.identifier = true)
    (h2 : quoteFree i.removed_serial_number = true)
    (h3 : quoteFree i.added_serial_number = true)
    (h4 : quoteFree i.stack_symptom = true) :
    parseReplacementSegment (replacementTuple i) = some i := by
  obtain ⟨hne, hq, _⟩ := idOk_props _ hid
  obtain ⟨bne, bq, _⟩ := boolStr_props i.stack_symptom_confirmed
  have hforall : List.Forall₂ fieldOkFor [true, false, false, false, true]
      [i.identifier, i.removed_serial_number, i.added_serial_number,
       i.stack_symptom, boolStr i.stack_symptom_confirmed] := by
    refine List.Forall₂.cons ⟨hq, fun _ => hne⟩ ?_
    refine List.Forall₂.cons ⟨h2, by simp⟩ ?_
    refine List.Forall₂.cons ⟨h3, by simp⟩ ?_
    refine List.Forall₂.cons ⟨h4, by simp⟩ ?_
    exact List.Forall₂.cons ⟨bq, fun _ => bne⟩ List.Forall₂.nil
  have hsearch := searchTuple_render hforall (by simp) []
  rw [List.append_nil] at hsearch
  show parseReplacementSegment (renderTuple [i.identifier,
    i.removed_serial_number, i.added_serial_number, i.stack_symptom,
    boolStr i.stack_symptom_confirmed]) = some i
  rw [parseReplacementSegment, hsearch]
  show some { identifier := i.identifier,
              removed_serial_number := i.removed_serial_number,
              added_serial_number := i.added_serial_number,
              stack_symptom := i.stack_symptom,
              stack_symptom_confirmed :=
                boolStr i.stack_symptom_confirmed == "true" } = some i
  rw [boolStr_beq_true]

theorem parseInspectionSegment_tuple (i : StackInspection)
    (hid : idOk i.identifier = true)
    (h2 : quoteFree i.serial_number = true)
    (h3 : quoteFree i.insight = true) :
    parseInspectionSegment (inspectionTuple i) = some i := by
  obtain ⟨hne, hq, _⟩ := idOk_props _ hid
  obtain ⟨bne, bq, _⟩ := boolStr_props i.completed
  have hforall : List.Forall₂ fieldOkFor [true, false, false, true]
      [i.identifier, i.serial_number, i.insight, boolStr i.completed] := by
    refine List.Forall₂.cons ⟨hq, fun _ => hne⟩ ?_
    refine List.Forall₂.cons ⟨h2, by simp⟩ ?_
    refine List.Forall₂.cons ⟨h3, by simp⟩ ?_
    exact List.Forall₂.cons ⟨bq, fun _ => bne⟩ List.Forall₂.nil
  have hsearch := searchTuple_render hforall (by simp) []
  rw [List.append_nil] at hsearch
  show parseInspectionSegment (renderTuple [i.identifier, i.serial_number,
    i.insight, boolStr i.completed]) = some i
  rw [parseInspectionSegment, hsearch]
  show some { identifier := i.identifier, serial_number := i.serial_number,
              insight := i.insight,
              completed := boolStr i.completed == "true" } = some i
  rw [boolStr_beq_true]

theorem parseTensioningSegment_tuple (i : StackTensioning)
    (hid : idOk i.identifier = true)
    (h2 : quoteFree i.serial_number = true)
    (h3 : quoteFree i.insight = true) :
    parseTensioningSegment (tensioningTuple i) = some i := by
  obtain ⟨hne, hq, _⟩ := idOk_props _ hid
  obtain ⟨bne, bq, _⟩ := boolStr_props i.completed
  have hforall : List.Forall₂ fieldOkFor [true, false, false, true]
      [i.identifier, i.serial_number, i.insight, boolStr i.completed] := by
    refine List.Forall₂.cons ⟨hq, fun _ => hne⟩ ?_
    refine List.Forall₂.cons ⟨h2, by simp⟩ ?_
    refine List.Forall₂.cons ⟨h3, by simp⟩ ?_
    exact List.Forall₂.cons ⟨bq, fun _ => bne⟩ List.Forall₂.nil
  have hsearch := searchTuple_render hforall (by simp) []
  rw [List.append_nil] at hsearch
  show parseTensioningSegment (renderTuple [i.identifier, i.serial_number,
    i.insight, boolStr i.completed]) = some i
  rw [parseTensioningSegment, hsearch]
  show some { identifier := i.identifier, serial_number := i.serial_number,
              insight := i.insight,
              completed := boolStr i.completed == "true" } = some i
  rw [boolStr_beq_true]

theorem parseInstallSegment_tuple (i : StackInstall)
    (hid : idOk i.identifier = true)
    (h2 : quoteFree i.serial_number = true) :
    parseInstallSegment (installTuple i) = some i := by
  obtain ⟨hne, hq, _⟩ := idOk_props _ hid
  have hforall : List.Forall₂ fieldOkFor [true, false]
      [i.identifier, i.serial_number] := by
    refine List.Forall₂.cons ⟨hq, fun _ => hne⟩ ?_
    exact List.Forall₂.cons ⟨h2, by simp⟩ List.Forall₂.nil
  have hsearch := searchTuple_render hforall (by simp) []
  rw [List.append_nil] at hsearch
  show parseInstallSegment
    (renderTuple [i.identifier, i.serial_number]) = some i
  rw [parseInstallSegment, hsearch]

/-- A well-formed legacy 3-field segment is rejected by the 4-field pattern
(it contains only six quotes, a 4-field match needs eight) and accepted by
the legacy pattern, yielding `completed = false`. -/
theorem parseInspectionSegment_legacy (id s ins : String)
    (hid : idOk id = true) (h2 : quoteFree s = true)
    (h3 : quoteFree ins = true) :
    parseInspectionSegment (renderTuple [id, s, ins]) =
      some { identifier := id, serial_number := s, insight := ins,
             completed := false } := by
  obtain ⟨hne, hq, _⟩ := idOk_props _ hid
  have h4 := searchTuple4_renderTuple3_none id s ins hq h2 h3
  have hforall : List.Forall₂ fieldOkFor [true, false, false]
      [id, s, ins] := by
    refine List.Forall₂.cons ⟨hq, fun _ => hne⟩ ?_
    refine List.Forall₂.cons ⟨h2, by simp⟩ ?_
    exact List.Forall₂.cons ⟨h3, by simp⟩ List.Forall₂.nil
  have hsearch := searchTuple_render hforall (by simp) []
  rw [List.append_nil] at hsearch
  rw [parseInspectionSegment, h4, hsearch]

/-- The Tensioning parser has no legacy fallback: a well-formed legacy
3-field segment yields no sub-record. -/
theorem parseTensioningSegment_legacy (id s ins : String)
    (hid : idOk id = true) (h2 : quoteFree s = true)
    (h3 : quoteFree ins = true) :
    parseTensioningSegment (renderTuple [id, s, ins]) = none := by
  obtain ⟨_, hq, _⟩ := idOk_props _ hid
  have h4 := searchTuple4_renderTuple3_none id s ins hq h2 h3
  rw [parseTensioningSegment, h4]

-- ── List-level round trip ───────────────────────────────────────────────

theorem splitSemi_sepBy_tuples (segs : List (List Char)) (hne : segs ≠ [])
    (h : ∀ seg ∈ segs, ∀ c ∈ seg, c ≠ ';') :
    splitSemi (sepBy ';' segs ++ [';']) = segs ++ [[]] := by
  induction segs with
  | nil => exact absurd rfl hne
  | cons x xs ih =>
    cases xs with
    | nil =>
      rw [sepBy_singleton]
      have hx : x ++ [';'] = x ++ ';' :: [] := rfl
      rw [hx, splitSemi_append x [] (h x (by simp))]
      rfl
    | cons y ys =>
      rw [sepBy_cons_cons]
      have harr : (x ++ ';' :: sepBy ';' (y :: ys)) ++ [';'] =
          x ++ ';' :: (sepBy ';' (y :: ys) ++ [';']) := by simp
      rw [harr, splitSemi_append x _ (h x (by simp)),
          ih (by simp) (fun seg hs => h seg (by simp [hs]))]
      rfl

theorem filterMap_eq_self_of_some {α : Type} {f : α → Option α} {l : List α}
    (h : ∀ a ∈ l, f a = some a) : l.filterMap f = l := by
  rw [List.filterMap_congr h]
  exact (congr_fun (List.filterMap_eq_map id) l).trans (List.map_id l)

/-- Shared round-trip skeleton: decoding the serialized form of a list of
sub-records recovers the list, provided each rendered tuple is free of
semicolons, survives the blank-segment filter, and parses back to its
sub-record. -/
theorem parseStackList_serializeTuples {α : Type} (p : List Char → Option α)
    (tup : α → List Char) (items : List α)
    (hsemi : ∀ i ∈ items, ∀ c ∈ tup i, c ≠ ';')
    (hkeep : ∀ i ∈ items, segmentKeep (tup i) = true)
    (hp : ∀ i ∈ items, p (tup i) = some i) :
    parseStackList p (some (serializeTuples tup items)) = items := by
  show (if serializeTuples tup items = "" then []
        else ((splitSemi (serializeTuples tup items).toList).filter
          segmentKeep).filterMap p) = items
  rw [if_neg (serializeTuples_ne_empty tup items)]
  have htl : (serializeTuples tup items).toList =
      sepBy ';' (items.map tup) ++ [';'] := rfl
  rw [htl]
  cases items with
  | nil => rfl
  | cons x xs =>
    have hsplit : splitSemi (sepBy ';' ((x :: xs).map tup) ++ [';']) =
        (x :: xs).map tup ++ [[]] := by
      refine splitSemi_sepBy_tuples _ (by simp) ?_
      intro seg hs
      rcases List.mem_map.mp hs with ⟨i, hi, rfl⟩
      exact hsemi i hi
    rw [hsplit, List.filter_append]
    have hfilter1 : ((x :: xs).map tup).filter segmentKeep =
        (x :: xs).map tup := by
      rw [List.filter_eq_self]
      intro a ha
      rcases List.mem_map.mp ha with ⟨i, hi, rfl⟩
      exact hkeep i hi
    have hfilter2 : List.filter segmentKeep [[]] = ([] : List (List Char)) :=
      rfl
    rw [hfilter1, hfilter2, List.append_nil]
    have hcomp : ((x :: xs).map tup).filterMap p =
        (x :: xs).filterMap (fun i => p (tup i)) := by
      rw [List.filterMap_map]
      rfl
    rw [hcomp]
    exact filterMap_eq_self_of_some hp

theorem wfStr_props {s : String} (h : wfStr s = true) :
    quoteFree s = true ∧ semiFree s = true := by
  simpa [wfStr, Bool.and_eq_true] using h

theorem roundTrip_replacements (L : List StackReplacement)
    (h : ∀ r ∈ L, idOk r.identifier = true ∧
      wfStr r.removed_serial_number = true ∧
      wfStr r.added_serial_number = true ∧ wfStr r.stack_symptom = true) :
    parseStackReplacements (some (serializeStackReplacements L)) = L := by
  apply parseStackList_serializeTuples
  · intro i hi
    obtain ⟨hid, hrm, had, hsy⟩ := h i hi
    refine renderTuple_no_semi ?_
    intro s hs
    simp only [List.mem_cons, List.not_mem_nil, or_false] at hs
    rcases hs with rfl | rfl | rfl | rfl | rfl
    · exact (idOk_props _ hid).2.2
    · exact (wfStr_props hrm).2
    · exact (wfStr_props had).2
    · exact (wfStr_props hsy).2
    · exact (boolStr_props _).2.2
  · intro i _
    exact segmentKeep_renderTuple _
  · intro i hi
    obtain ⟨hid, hrm, had, hsy⟩ := h i hi
    exact parseReplacementSegment_tuple i hid (wfStr_props hrm).1
      (wfStr_props had).1 (wfStr_props hsy).1

theorem roundTrip_inspections (L : List StackInspection)
    (h : ∀ r ∈ L, idOk r.identifier = true ∧
      wfStr r.serial_number = true ∧ wfStr r.insight = true) :
    parseStackInspections (some (serializeStackInspections L)) = L := by
  apply parseStackList_serializeTuples
  · intro i hi
    obtain ⟨hid, hsn, hin⟩ := h i hi
    refine renderTuple_no_semi ?_
    intro s hs
    simp only [List.mem_cons, List.not_mem_nil, or_false] at hs
    rcases hs with rfl | rfl | rfl | rfl
    · exact (idOk_props _ hid).2.2
    · exact (wfStr_props hsn).2
    · exact (wfStr_props hin).2
    · exact (boolStr_props _).2.2
  · intro i _
    exact segmentKeep_renderTuple _
  · intro i hi
    obtain ⟨hid, hsn, hin⟩ := h i hi
    exact parseInspectionSegment_tuple i hid (wfStr_props hsn).1
      (wfStr_props hin).1

theorem roundTrip_tensioning (L : List StackTensioning)
    (h : ∀ r ∈ L, idOk r.identifier = true ∧
      wfStr r.serial_number = true ∧ wfStr r.insight = true) :
    parseStackTensioning (some (serializeStackTensioning L)) = L := by
  apply parseStackList_serializeTuples
  · intro i hi
    obtain ⟨hid, hsn, hin⟩ := h i hi
    refine renderTuple_no_semi ?_
    intro s hs
    simp only [List.mem_cons, List.not_mem_nil, or_false] at hs
    rcases hs with rfl | rfl | rfl | rfl
    · exact (idOk_props _ hid).2.2
    · exact (wfStr_props hsn).2
    · exact (wfStr_props hin).2
    · exact (boolStr_props _).2.2
  · intro i _
    exact segmentKeep_renderTuple _
  · intro i hi
    obtain ⟨hid, hsn, hin⟩ := h i hi
    exact parseTensioningSegment_tuple i hid (wfStr_props hsn).1
      (wfStr_props hin).1

theorem roundTrip_installs (L : List StackInstall)
    (h : ∀ r ∈ L, idOk r.identifier = true ∧ wfStr r.serial_number = true) :
    parseStackInstalls (some (serializeStackInstalls L)) = L := by
  apply parseStackList_serializeTuples
  · intro i hi
    obtain ⟨hid, hsn⟩ := h i hi
    refine renderTuple_no_semi ?_
    intro s hs
    simp only [List.mem_cons, List.not_mem_nil, or_false] at hs
    rcases hs with rfl | rfl
    · exact (idOk_props _ hid).2.2
    · exact (wfStr_props hsn).2
  · intro i _
    exact segmentKeep_renderTuple _
  · intro i hi
    obtain ⟨hid, hsn⟩ := h i hi
    exact parseInstallSegment_tuple i hid (wfStr_props hsn).1

-- ── Single- and two-segment decoding helpers ────────────────────────────

theorem parseStackList_mk_single {α : Type} (p : List Char → Option α)
    (seg : List Char) (hne : seg ≠ []) (hsemi : ∀ c ∈ seg, c ≠ ';')
    (hkeep : segmentKeep seg = true) :
    parseStackList p (some (String.mk seg)) =
      (match p seg with
       | some i => [i]
       | none => []) := by
  show (if String.mk seg = "" then []
        else ((splitSemi (String.mk seg).toList).filter
          segmentKeep).filterMap p) = _
  rw [if_neg (show ¬(String.mk seg = "") from
    fun hEq => hne ((mk_eq_empty_iff seg).mp hEq))]
  have htl : (String.mk seg).toList = seg := rfl
  rw [htl, splitSemi_no_semi seg hsemi]
  have hf : List.filter segmentKeep [seg] = [seg] := by
    simp [List.filter, hkeep]
  rw [hf]
  cases hp : p seg <;> simp [List.filterMap_cons, hp]

theorem parseStackList_mk_two {α : Type} (p : List Char → Option α)
    (s1 s2 : List Char) (h1 : ∀ c ∈ s1, c ≠ ';') (h2 : ∀ c ∈ s2, c ≠ ';') :
    parseStackList p (some (String.mk (s1 ++ ';' :: s2))) =
      ((if segmentKeep s1 then [s1] else []) ++
       (if segmentKeep s2 then [s2] else [])).filterMap p := by
  show (if String.mk (s1 ++ ';' :: s2) = "" then []
        else ((splitSemi (String.mk (s1 ++ ';' :: s2)).toList).filter
          segmentKeep).filterMap p) = _
  rw [if_neg (show ¬(String.mk (s1 ++ ';' :: s2) = "") from
    fun hEq => by simpa using (mk_eq_empty_iff _).mp hEq)]
  have htl : (String.mk (s1 ++ ';' :: s2)).toList = s1 ++ ';' :: s2 := rfl
  rw [htl, splitSemi_append s1 s2 h1, splitSemi_no_semi s2 h2]
  have hf : List.filter segmentKeep [s1, s2] =
      (if segmentKeep s1 then [s1] else []) ++
      (if segmentKeep s2 then [s2] else []) := by
    simp [List.filter]
    cases hk1 : segmentKeep s1 <;> cases hk2 : segmentKeep s2 <;> simp
  rw [hf]

theorem parseStackList_tuple_and_garbage {α : Type} (p : List Char → Option α)
    (tupSeg g : List Char) (i : α)
    (htup_semi : ∀ c ∈ tupSeg, c ≠ ';') (hg : ∀ c ∈ g, c ≠ ';')
    (hkeep : segmentKeep tupSeg = true)
    (hp : p tupSeg = some i) (hgp : p g = none) :
    parseStackList p (some (String.mk (tupSeg ++ ';' :: g))) = [i] ∧
    parseStackList p (some (String.mk (g ++ ';' :: tupSeg))) = [i] := by
  constructor
  · rw [parseStackList_mk_two p tupSeg g htup_semi hg, hkeep]
    cases hk : segmentKeep g <;>
      simp [List.filterMap_append, List.filterMap_cons, hp, hgp]
  · rw [parseStackList_mk_two p g tupSeg hg htup_semi, hkeep]
    cases hk : segmentKeep g <;>
      simp [List.filterMap_append, List.filterMap_cons, hp, hgp]

-- ═══════════════════════════════════════════════════════════════════════
-- Claim theorems
-- ═══════════════════════════════════════════════════════════════════════

/-- Claim C1, counterexample: the claim's well-formedness condition (no
single quote in any field value) is not enough for the round trip.  A
well-formed Inspection sub-record whose insight is the single character `;`
(no quote, identifier `a` unique in `{a..e}`) serializes to a string that
decodes to the empty list, not back to the one-element list. -/
theorem claim_C1_counterexample :
    parseStackInspections (some (serializeStackInspections
      [{ identifier := "a", serial_number := "x", insight := ";",
         completed := true }])) = [] ∧
    ([] : List StackInspection) ≠
      [{ identifier := "a", serial_number := "x", insight := ";",
         completed := true }] :=
  ⟨by decide, by decide⟩

/-- Claim C1, amended: for every sub-record shape, decoding the serialized
form of a list of well-formed sub-records with unique identifiers drawn
from `{a..e}` returns the list, order preserved — where well-formed
additionally requires that no field value contains a semicolon (the tuple
separator), not only no single quote. -/
theorem claim_C1_amended
    (Lr : List StackReplacement)
    (hr : ∀ r ∈ Lr, idOk r.identifier = true ∧
      wfStr r.removed_serial_number = true ∧
      wfStr r.added_serial_number = true ∧ wfStr r.stack_symptom = true)
    (hru : (Lr.map StackReplacement.identifier).Nodup)
    (Li : List StackInspection)
    (hi : ∀ r ∈ Li, idOk r.identifier = true ∧
      wfStr r.serial_number = true ∧ wfStr r.insight = true)
    (hiu : (Li.map StackInspection.identifier).Nodup)
    (Lt : List StackTensioning)
    (ht : ∀ r ∈ Lt, idOk r.identifier = true ∧
      wfStr r.serial_number = true ∧ wfStr r.insight = true)
    (htu : (Lt.map StackTensioning.identifier).Nodup)
    (Ln : List StackInstall)
    (hn : ∀ r ∈ Ln, idOk r.identifier = true ∧ wfStr r.serial_number = true)
    (hnu : (Ln.map StackInstall.identifier).Nodup) :
    parseStackReplacements (some (serializeStackReplacements Lr)) = Lr ∧
    parseStackInspections (some (serializeStackInspections Li)) = Li ∧
    parseStackTensioning (some (serializeStackTensioning Lt)) = Lt ∧
    parseStackInstalls (some (serializeStackInstalls Ln)) = Ln :=
  ⟨roundTrip_replacements Lr hr, roundTrip_inspections Li hi,
   roundTrip_tensioning Lt ht, roundTrip_installs Ln hn⟩

/-- Witness for the amended claim C1 at concrete two-element lists. -/
theorem claim_C1_amended_witness :
    parseStackReplacements (some (serializeStackReplacements
      [{ identifier := "a", removed_serial_number := "r1",
         added_serial_number := "r2", stack_symptom := "H2 leak",
         stack_symptom_confirmed := true },
       { identifier := "b", removed_serial_number := "",
         added_serial_number := "n2", stack_symptom := "",
         stack_symptom_confirmed := false }])) =
      [{ identifier := "a", removed_serial_number := "r1",
         added_serial_number := "r2", stack_symptom := "H2 leak",
         stack_symptom_confirmed := true },
       { identifier := "b", removed_serial_number := "",
         added_serial_number := "n2", stack_symptom := "",
         stack_symptom_confirmed := false }] ∧
    parseStackInspections (some (serializeStackInspections
      [{ identifier := "a", serial_number := "sn1", insight := "ok",
         completed := true }])) =
      [{ identifier := "a", serial_number := "sn1", insight := "ok",
         completed := true }] ∧
    parseStackTensioning (some (serializeStackTensioning
      [{ identifier := "c", serial_number := "sn3", insight := "",
         completed := false }])) =
      [{ identifier := "c", serial_number := "sn3", insight := "",
         completed := false }] ∧
    parseStackInstalls (some (serializeStackInstalls
      [{ identifier := "d", serial_number := "sn4" },
       { identifier := "e", serial_number := "sn5" }])) =
      [{ identifier := "d", serial_number := "sn4" },
       { identifier := "e", serial_number := "sn5" }] :=
  claim_C1_amended
    [{ identifier := "a", removed_serial_number := "r1",
       added_serial_number := "r2", stack_symptom := "H2 leak",
       stack_symptom_confirmed := true },
     { identifier := "b", removed_serial_number := "",
       added_serial_number := "n2", stack_symptom := "",
       stack_symptom_confirmed := false }] (by decide) (by decide)
    [{ identifier := "a", serial_number := "sn1", insight := "ok",
       completed := true }] (by decide) (by decide)
    [{ identifier := "c", serial_number := "sn3", insight := "",
       completed := false }] (by decide) (by decide)
    [{ identifier := "d", serial_number := "sn4" },
     { identifier := "e", serial_number := "sn5" }] (by decide) (by decide)

/-- Claim C2, counterexample: the Tensioning parser has no legacy 3-field
fallback.  The legacy segment for (`a`,`sn`,`ok`) decodes to one Inspection
sub-record with `completed = false`, but to the empty Tensioning list, not
to the one sub-record the claim asserts. -/
theorem claim_C2_counterexample :
    parseStackTensioning
      (some (String.mk (renderTuple ["a", "sn", "ok"]))) = [] ∧
    parseStackInspections
      (some (String.mk (renderTuple ["a", "sn", "ok"]))) =
      [{ identifier := "a", serial_number := "sn", insight := "ok",
         completed := false }] ∧
    ([] : List StackTensioning) ≠
      [{ identifier := "a", serial_number := "sn", insight := "ok",
         completed := false }] :=
  ⟨by decide, by decide, by decide⟩

/-- Claim C2, amended: only the Inspection parser falls back to the legacy
3-field pattern when the 4-field pattern fails, defaulting `completed` to
`false`; the Tensioning parser accepts only the 4-field pattern and drops a
legacy 3-field segment. -/
theorem claim_C2_amended (id s ins : String) (hid : idOk id = true)
    (hs : wfStr s = true) (hins : wfStr ins = true) :
    parseStackInspections (some (String.mk (renderTuple [id, s, ins]))) =
      [{ identifier := id, serial_number := s, insight := ins,
         completed := false }] ∧
    parseStackTensioning (some (String.mk (renderTuple [id, s, ins]))) =
      [] := by
  have hne : renderTuple [id, s, ins] ≠ [] := by simp [renderTuple]
  have hsemi : ∀ c ∈ renderTuple [id, s, ins], c ≠ ';' := by
    refine renderTuple_no_semi ?_
    intro t ht
    simp only [List.mem_cons, List.not_mem_nil, or_false] at ht
    rcases ht with rfl | rfl | rfl
    · exact (idOk_props _ hid).2.2
    · exact (wfStr_props hs).2
    · exact (wfStr_props hins).2
  have hkeep := segmentKeep_renderTuple [id, s, ins]
  constructor
  · rw [parseStackInspections,
        parseStackList_mk_single _ _ hne hsemi hkeep,
        parseInspectionSegment_legacy id s ins hid (wfStr_props hs).1
          (wfStr_props hins).1]
  · rw [parseStackTensioning,
        parseStackList_mk_single _ _ hne hsemi hkeep,
        parseTensioningSegment_legacy id s ins hid (wfStr_props hs).1
          (wfStr_props hins).1]

/-- Witness for the amended claim C2 at a concrete legacy segment. -/
theorem claim_C2_amended_witness :
    parseStackInspections
      (some (String.mk (renderTuple ["b", "s7", "worn"]))) =
      [{ identifier := "b", serial_number := "s7", insight := "worn",
         completed := false }] ∧
    parseStackTensioning
      (some (String.mk (renderTuple ["b", "s7", "worn"]))) = [] :=
  claim_C2_amended "b" "s7" "worn" (by decide) (by decide) (by decide)

/-- Claim C7: for every shape, a list string made of one well-formed tuple
segment and one garbage segment (matching neither pattern of the shape,
containing no separator) joined by `;` decodes, in either order, to exactly
the sub-record of the well-formed segment: the garbage segment is dropped
silently and parsing of the other segment is unaffected. -/
theorem claim_C7
    (g : List Char) (hg : ∀ c ∈ g, c ≠ ';')
    (r : StackReplacement)
    (hr : idOk r.identifier = true ∧ wfStr r.removed_serial_number = true ∧
      wfStr r.added_serial_number = true ∧ wfStr r.stack_symptom = true)
    (hgr : parseReplacementSegment g = none)
    (i : StackInspection)
    (hi : idOk i.identifier = true ∧ wfStr i.serial_number = true ∧
      wfStr i.insight = true)
    (hgi : parseInspectionSegment g = none)
    (t : StackTensioning)
    (ht : idOk t.identifier = true ∧ wfStr t.serial_number = true ∧
      wfStr t.insight = true)
    (hgt : parseTensioningSegment g = none)
    (st : StackInstall)
    (hst : idOk st.identifier = true ∧ wfStr st.serial_number = true)
    (hgst : parseInstallSegment g = none) :
    (parseStackReplacements
      (some (String.mk (replacementTuple r ++ ';' :: g))) = [r] ∧
     parseStackReplacements
      (some (String.mk (g ++ ';' :: replacementTuple r))) = [r]) ∧
    (parseStackInspections
      (some (String.mk (inspectionTuple i ++ ';' :: g))) = [i] ∧
     parseStackInspections
      (some (String.mk (g ++ ';' :: inspectionTuple i))) = [i]) ∧
    (parseStackTensioning
      (some (String.mk (tensioningTuple t ++ ';' :: g))) = [t] ∧
     parseStackTensioning
      (some (String.mk (g ++ ';' :: tensioningTuple t))) = [t]) ∧
    (parseStackInstalls
      (some (String.mk (installTuple st ++ ';' :: g))) = [st] ∧
     parseStackInstalls
      (some (String.mk (g ++ ';' :: installTuple st))) = [st]) := by
  refine ⟨?_, ?_, ?_, ?_⟩
  · obtain ⟨hid, h2, h3, h4⟩ := hr
    refine parseStackList_tuple_and_garbage _ _ _ _ ?_ hg
      (segmentKeep_renderTuple _)
      (parseReplacementSegment_tuple r hid (wfStr_props h2).1
        (wfStr_props h3).1 (wfStr_props h4).1) hgr
    refine renderTuple_no_semi ?_
    intro x hx
    simp only [List.mem_cons, List.not_mem_nil, or_false] at hx
    rcases hx with rfl | rfl | rfl | rfl | rfl
    · exact (idOk_props _ hid).2.2
    · exact (wfStr_props h2).2
    · exact (wfStr_props h3).2
    · exact (wfStr_props h4).2
    · exact (boolStr_props _).2.2
  · obtain ⟨hid, h2, h3⟩ := hi
    refine parseStackList_tuple_and_garbage _ _ _ _ ?_ hg
      (segmentKeep_renderTuple _)
      (parseInspectionSegment_tuple i hid (wfStr_props h2).1
        (wfStr_props h3).1) hgi
    refine renderTuple_no_semi ?_
    intro x hx
    simp only [List.mem_cons, List.not_mem_nil, or_false] at hx
    rcases hx with rfl | rfl | rfl | rfl
    · exact (idOk_props _ hid).2.2
    · exact (wfStr_props h2).2
    · exact (wfStr_props h3).2
    · exact (boolStr_props _).2.2
  · obtain ⟨hid, h2, h3⟩ := ht
    refine parseStackList_tuple_and_garbage _ _ _ _ ?_ hg
      (segmentKeep_renderTuple _)
      (parseTensioningSegment_tuple t hid (wfStr_props h2).1
        (wfStr_props h3).1) hgt
    refine renderTuple_no_semi ?_
    intro x hx
    simp only [List.mem_cons, List.not_mem_nil, or_false] at hx
    rcases hx with rfl | rfl | rfl | rfl
    · exact (idOk_props _ hid).2.2
    · exact (wfStr_props h2).2
    · exact (wfStr_props h3).2
    · exact (boolStr_props _).2.2
  · obtain ⟨hid, h2⟩ := hst
    refine parseStackList_tuple_and_garbage _ _ _ _ ?_ hg
      (segmentKeep_renderTuple _)
      (parseInstallSegment_tuple st hid (wfStr_props h2).1) hgst
    refine renderTuple_no_semi ?_
    intro x hx
    simp only [List.mem_cons, List.not_mem_nil, or_false] at hx
    rcases hx with rfl | rfl
    · exact (idOk_props _ hid).2.2
    · exact (wfStr_props h2).2

/-- Witness for claim C7 with the garbage segment `garbage`. -/
theorem claim_C7_witness :
    parseStackInstalls (some (String.mk
      (installTuple { identifier := "a", serial_number := "sn" } ++
        ';' :: "garbage".toList))) =
      [{ identifier := "a", serial_number := "sn" }] :=
  ((claim_C7 "garbage".toList (by decide)
    { identifier := "a", removed_serial_number := "r", added_serial_number := "",
      stack_symptom := "", stack_symptom_confirmed := false }
    (by decide) (by decide)
    { identifier := "a", serial_number := "s", insight := "",
      completed := false } (by decide) (by decide)
    { identifier := "a", serial_number := "s", insight := "",
      completed := false } (by decide) (by decide)
    { identifier := "a", serial_number := "sn" } (by decide)
    (by decide)).2.2.2).1

/-- Claim C6: for every stack category, serializing a submitted form whose
extraction produces zero sub-records stores null (not an empty or
whitespace string) in that category's encoded record field, and a
null/absent encoded field decodes to the empty list. -/
theorem claim_C6 (value : FormValue) (n : Nat) :
    (extractStackReplacementsFromForm value n = [] →
      jget (stackReplacements.serializeFormValue value n)
        "stack_replacements" = some JVal.jnull) ∧
    (extractStackInspectionsFromForm value n = [] →
      jget (stackInspection.serializeFormValue value n)
        "stack_inspections" = some JVal.jnull) ∧
    (extractStackTensioningFromForm value n = [] →
      jget (stackTensioning.serializeFormValue value n)
        "stack_tensioning" = some JVal.jnull) ∧
    (extractStackInstallsFromForm value n = [] →
      jget (stackInstalls.serializeFormValue value n)
        "stack_installs" = some JVal.jnull) ∧
    parseStackReplacements none = [] ∧ parseStackInspections none = [] ∧
    parseStackTensioning none = [] ∧ parseStackInstalls none = [] := by
  refine ⟨?_, ?_, ?_, ?_, rfl, rfl, rfl, rfl⟩
  · intro h1
    show jget [("workorder_id", jsOrNull (jget value "workorder_id")),
      ("stack_replacements",
       if (extractStackReplacementsFromForm value n).length > 0 then
         JVal.jstr (serializeStackReplacements
           (extractStackReplacementsFromForm value n))
       else JVal.jnull)] "stack_replacements" = some JVal.jnull
    rw [h1]
    rfl
  · intro h1
    show jget [("stack_inspections",
      if (extractStackInspectionsFromForm value n).length > 0 then
        JVal.jstr (serializeStackInspections
          (extractStackInspectionsFromForm value n))
      else JVal.jnull)] "stack_inspections" = some JVal.jnull
    rw [h1]
    rfl
  · intro h1
    show jget [("stack_tensioning",
      if (extractStackTensioningFromForm value n).length > 0 then
        JVal.jstr (serializeStackTensioning
          (extractStackTensioningFromForm value n))
      else JVal.jnull)] "stack_tensioning" = some JVal.jnull
    rw [h1]
    rfl
  · intro h1
    show jget [("stack_installs",
      if (extractStackInstallsFromForm value n).length > 0 then
        JVal.jstr (serializeStackInstalls
          (extractStackInstallsFromForm value n))
      else JVal.jnull)] "stack_installs" = some JVal.jnull
    rw [h1]
    rfl

/-- Witness for claim C6 at the empty form value. -/
theorem claim_C6_witness :
    jget (stackInstalls.serializeFormValue [] 1) "stack_installs" =
      some JVal.jnull :=
  (claim_C6 [] 1).2.2.2.1 (by decide)

/-- Claim C9: with basic access `getCategoryOptions` returns, in
registration order, exactly the registered categories whose `internalOnly`
flag is false (four of them); with elevated access it returns all eight
registered categories in registration order. -/
theorem claim_C9 :
    getCategoryOptions false =
      (CATEGORY_CONFIGS.filter (fun c => !c.internalOnly)).map
        (fun c => (c.value, c.label)) ∧
    getCategoryOptions false =
      [("Calibration", "Calibration"),
       ("Software update", "Software update"),
       ("Settings change", "Settings change"), ("Other", "Other")] ∧
    getCategoryOptions true =
      CATEGORY_CONFIGS.map (fun c => (c.value, c.label)) ∧
    getCategoryOptions true =
      [("Calibration", "Calibration"),
       ("Software update", "Software update"),
       ("Settings change", "Settings change"),
       ("Stack replacements", "Stack replacements"),
       ("Stack inspection", "Stack visual inspection"),
       ("Stack tensioning", "Stack tensioning"),
       ("Stack installs", "Stack installs"), ("Other", "Other")] ∧
    (getCategoryOptions true).length = 8 :=
  ⟨rfl, rfl, rfl, rfl, rfl⟩

-- ── Patch operation lemmas ──────────────────────────────────────────────

theorem find?_map_setEntry (p : Patch) (k k2 : String) (v : JVal)
    (h : (k2 == k) = false) :
    (p.map (fun kv => if kv.fst == k2 then (k2, v) else kv)).find?
      (fun kv => kv.fst == k) = p.find? (fun kv => kv.fst == k) := by
  induction p with
  | nil => rfl
  | cons kv rest ih =>
    by_cases hk : (kv.fst == k2) = true
    · have hkk : kv.fst = k2 := eq_of_beq hk
      rw [List.map_cons, if_pos hk]
      rw [List.find?_cons, List.find?_cons]
      have hk2k : ((k2, v).fst == k) = false := h
      have hkvk : (kv.fst == k) = false := by rw [hkk]; exact h
      rw [hk2k, hkvk]
      exact ih
    · rw [List.map_cons, if_neg hk]
      rw [List.find?_cons, List.find?_cons]
      cases hkv : (kv.fst == k) with
      | true => rfl
      | false => exact ih

theorem jget_setKey_same (p : Patch) (k : String) (v : JVal) :
    jget (setKey p k v) k = some v := by
  unfold setKey
  by_cases hany : (p.any (fun kv => kv.fst == k)) = true
  · rw [if_pos hany]
    unfold jget
    induction p with
    | nil => simp at hany
    | cons kv rest ih =>
      by_cases hk : (kv.fst == k) = true
      · rw [List.map_cons, if_pos hk, List.find?_cons]
        have : ((k, v).fst == k) = true := by simp
        rw [this]
        rfl
      · rw [List.map_cons, if_neg hk, List.find?_cons]
        have hkf : (kv.fst == k) = false := by
          cases h2 : (kv.fst == k) with
          | true => exact absurd h2 hk
          | false => rfl
        rw [hkf]
        apply ih
        rcases List.any_eq_true.mp hany with ⟨kv2, hkv2, hkv2k⟩
        rcases List.mem_cons.mp hkv2 with rfl | hmem
        · exact absurd hkv2k hk
        · exact List.any_eq_true.mpr ⟨kv2, hmem, hkv2k⟩
  · rw [if_neg hany]
    unfold jget
    rw [List.find?_append]
    have hnone : p.find? (fun kv => kv.fst == k) = none := by
      rw [List.find?_eq_none]
      intro kv hkv hb
      exact hany (List.any_eq_true.mpr ⟨kv, hkv, hb⟩)
    rw [hnone]
    simp [List.find?]

theorem jget_setKey_other (p : Patch) (k k2 : String) (v : JVal)
    (h : k2 ≠ k) :
    jget (setKey p k2 v) k = jget p k := by
  have hb : (k2 == k) = false := by
    cases h2 : (k2 == k) with
    | true => exact absurd (eq_of_beq h2) h
    | false => rfl
  unfold setKey
  split
  · unfold jget
    rw [find?_map_setEntry p k k2 v hb]
  · unfold jget
    rw [List.find?_append]
    have hsingle : List.find? (fun kv => kv.fst == k) [(k2, v)] = none := by
      simp [List.find?, hb]
    rw [hsingle]
    cases p.find? (fun kv => kv.fst == k) <;> rfl

theorem jget_assignAll_notmem (p q : Patch) (k : String)
    (h : ∀ kv ∈ q, kv.fst ≠ k) : jget (assignAll p q) k = jget p k := by
  induction q generalizing p with
  | nil => rfl
  | cons kv rest ih =>
    have hstep : assignAll p (kv :: rest) =
        assignAll (setKey p kv.fst kv.snd) rest := rfl
    rw [hstep, ih _ (fun kv2 h2 => h kv2 (by simp [h2]))]
    exact jget_setKey_other p k kv.fst kv.snd (h kv (by simp))

theorem jget_applyNullDefault_other (p : Patch) (k k2 : String)
    (h : k2 ≠ k) : jget (applyNullDefault p k2) k = jget p k :=
  jget_setKey_other p k k2 _ h

-- ── Keys produced by the category serializers ───────────────────────────

/-- The category-owned record fields: every key a registered category's
`serializeFormValue` can produce is among these. -/
def categoryOwnedKeys : List String :=
  ["tag_numbers", "software_type", "version", "workorder_id",
   "stack_replacements", "stack_inspections", "stack_tensioning",
   "stack_installs"]

theorem serializeFormValue_keys (c : CategoryConfig)
    (hc : c ∈ CATEGORY_CONFIGS) (value : FormValue) (n : Nat) :
    ∀ kv ∈ c.serializeFormValue value n, kv.fst ∈ categoryOwnedKeys := by
  simp only [CATEGORY_CONFIGS, List.mem_cons, List.not_mem_nil,
    or_false] at hc
  rcases hc with rfl | rfl | rfl | rfl | rfl | rfl | rfl | rfl
  · intro kv hkv
    simp only [calibration] at hkv
    simp only [List.mem_cons, List.not_mem_nil, or_false] at hkv
    subst hkv
    show "tag_numbers" ∈ categoryOwnedKeys
    decide
  · intro kv hkv
    simp only [softwareUpdate] at hkv
    simp only [List.mem_cons, List.not_mem_nil, or_false] at hkv
    rcases hkv with rfl | rfl
    · show "software_type" ∈ categoryOwnedKeys
      decide
    · show "version" ∈ categoryOwnedKeys
      decide
  · intro kv hkv
    simp only [settingsChange] at hkv
    simp only [List.mem_cons, List.not_mem_nil, or_false] at hkv
    subst hkv
    show "tag_numbers" ∈ categoryOwnedKeys
    decide
  · intro kv hkv
    simp only [stackReplacements] at hkv
    simp only [List.mem_cons, List.not_mem_nil, or_false] at hkv
    rcases hkv with rfl | rfl
    · show "workorder_id" ∈ categoryOwnedKeys
      decide
    · show "stack_replacements" ∈ categoryOwnedKeys
      decide
  · intro kv hkv
    simp only [stackInspection] at hkv
    simp only [List.mem_cons, List.not_mem_nil, or_false] at hkv
    subst hkv
    show "stack_inspections" ∈ categoryOwnedKeys
    decide
  · intro kv hkv
    simp only [stackTensioning] at hkv
    simp only [List.mem_cons, List.not_mem_nil, or_false] at hkv
    subst hkv
    show "stack_tensioning" ∈ categoryOwnedKeys
    decide
  · intro kv hkv
    simp only [stackInstalls] at hkv
    simp only [List.mem_cons, List.not_mem_nil, or_false] at hkv
    subst hkv
    show "stack_installs" ∈ categoryOwnedKeys
    decide
  · intro kv hkv
    simp only [otherCategory] at hkv
    simp at hkv

theorem getCategoryConfig_mem {k : Option String} {c : CategoryConfig}
    (h : getCategoryConfig k = some c) : c ∈ CATEGORY_CONFIGS := by
  unfold getCategoryConfig at h
  split at h
  · split at h
    · cases h
    · exact List.mem_of_find?_eq_some h
  · cases h

/-- Applying a registered category's serialization leaves every key that no
category owns untouched. -/
theorem jget_serialize_assign (base : Patch) (category : Option String)
    (value : FormValue) (n : Nat) (k : String)
    (hk : k ∉ categoryOwnedKeys) :
    jget (match getCategoryConfig category with
          | some cfg => assignAll base (cfg.serializeFormValue value n)
          | none => base) k = jget base k := by
  cases hcfg : getCategoryConfig category with
  | none => rfl
  | some cfg =>
    have hmem := getCategoryConfig_mem hcfg
    exact jget_assignAll_notmem _ _ _
      (fun kv hkv heq =>
        hk (heq ▸ serializeFormValue_keys cfg hmem value n kv hkv))

theorem jget_filter_bne (value : FormValue) (k : String)
    (f : String × JVal → Bool) (hf : ∀ kv, f kv = true → kv.fst ≠ k) :
    jget (value.filter f) k = none := by
  unfold jget
  have hnone : (value.filter f).find? (fun kv => kv.fst == k) = none := by
    rw [List.find?_eq_none]
    intro kv hkv hb
    exact hf kv (List.mem_filter.mp hkv).2 (eq_of_beq hb)
  rw [hnone]
  rfl

-- ── Key-tracking lemmas for the three patch builders ────────────────────

theorem buildAddPatch_performed_on (category : String) (value : FormValue)
    (isPP : Bool) (n : Nat) (iso : String → Option Int) :
    jget (buildAddPatch category value isPP n iso) "performed_on" =
      (if jtruthy (jget value "performed_on") then
        match parseISOMillis iso (jget value "performed_on") with
        | some m => some (JVal.jnum m)
        | none => none
       else none) := by
  unfold buildAddPatch
  rw [jget_assignAll_notmem]
  case h =>
    intro kv hkv
    have h2 := (List.mem_filter.mp hkv).2
    rw [Bool.and_eq_true] at h2
    simpa using h2.1
  by_cases ht : jtruthy (jget value "performed_on") = true
  · rw [if_pos ht, if_pos ht]
    cases hm : parseISOMillis iso (jget value "performed_on") with
    | none =>
      rw [jget_serialize_assign _ (some category) value n _ (by decide)]
      rfl
    | some m =>
      rw [jget_setKey_same]
  · rw [if_neg ht, if_neg ht]
    rw [jget_serialize_assign _ (some category) value n _ (by decide)]
    rfl

theorem buildAddPatch_external_note (category : String) (value : FormValue)
    (isPP : Bool) (n : Nat) (iso : String → Option Int) :
    jget (buildAddPatch category value isPP n iso) "external_note" =
      some (externalNoteValue isPP value) := by
  unfold buildAddPatch
  rw [jget_assignAll_notmem]
  case h =>
    intro kv hkv
    have h2 := (List.mem_filter.mp hkv).2
    rw [Bool.and_eq_true] at h2
    simpa using h2.2
  have hbase : jget [("note_category", JVal.jstr category),
      ("external_note", externalNoteValue isPP value)] "external_note" =
      some (externalNoteValue isPP value) := rfl
  by_cases ht : jtruthy (jget value "performed_on") = true
  · rw [if_pos ht]
    cases hm : parseISOMillis iso (jget value "performed_on") with
    | none =>
      rw [jget_serialize_assign _ (some category) value n _ (by decide)]
      exact hbase
    | some m =>
      rw [jget_setKey_other _ _ _ _ (by decide),
          jget_serialize_assign _ (some category) value n _ (by decide)]
      exact hbase
  · rw [if_neg ht]
    rw [jget_serialize_assign _ (some category) value n _ (by decide)]
    exact hbase

theorem buildRecatPatch_performed_on (newCategory : String)
    (value : FormValue) (isPP : Bool) (n : Nat)
    (iso : String → Option Int) :
    jget (buildRecatPatch newCategory value isPP n iso) "performed_on" =
      (if jtruthy (jget value "performed_on") then
        match parseISOMillis iso (jget value "performed_on") with
        | some m => some (JVal.jnum m)
        | none => none
       else none) := by
  unfold buildRecatPatch buildRecatPatchCore
  rw [jget_applyNullDefault_other _ _ _ (by decide),
      jget_applyNullDefault_other _ _ _ (by decide),
      jget_applyNullDefault_other _ _ _ (by decide),
      jget_applyNullDefault_other _ _ _ (by decide),
      jget_applyNullDefault_other _ _ _ (by decide),
      jget_applyNullDefault_other _ _ _ (by decide),
      jget_applyNullDefault_other _ _ _ (by decide),
      jget_applyNullDefault_other _ _ _ (by decide)]
  have htext : ∀ p : Patch,
      jget (match jget value "text" with
            | some JVal.jundefined => p
            | some v => setKey p "text" v
            | none => p) "performed_on" = jget p "performed_on" := by
    intro p
    cases hv : jget value "text" with
    | none => rfl
    | some v =>
      cases v <;>
        first
          | rfl
          | exact jget_setKey_other _ _ _ _ (by decide)
  rw [htext, jget_serialize_assign _ (some newCategory) value n _ (by decide)]
  have htag : ∀ p : Patch,
      jget (match jget value "tag_numbers" with
            | some (JVal.jarr items) =>
              setKey p "tag_numbers" (JVal.jarr (items.map tagItemToString))
            | _ => p) "performed_on" = jget p "performed_on" := by
    intro p
    cases hv : jget value "tag_numbers" with
    | none => rfl
    | some v =>
      cases v <;>
        first
          | rfl
          | exact jget_setKey_other _ _ _ _ (by decide)
  rw [htag]
  by_cases ht : jtruthy (jget value "performed_on") = true
  · rw [if_pos ht, if_pos ht]
    cases hm : parseISOMillis iso (jget value "performed_on") with
    | none => rfl
    | some m => rw [jget_setKey_same]
  · rw [if_neg ht, if_neg ht]
    rfl

theorem buildRecatPatch_external_note (newCategory : String)
    (value : FormValue) (isPP : Bool) (n : Nat)
    (iso : String → Option Int) :
    jget (buildRecatPatch newCategory value isPP n iso) "external_note" =
      some (externalNoteValue isPP value) := by
  unfold buildRecatPatch buildRecatPatchCore
  rw [jget_applyNullDefault_other _ _ _ (by decide),
      jget_applyNullDefault_other _ _ _ (by decide),
      jget_applyNullDefault_other _ _ _ (by decide),
      jget_applyNullDefault_other _ _ _ (by decide),
      jget_applyNullDefault_other _ _ _ (by decide),
      jget_applyNullDefault_other _ _ _ (by decide),
      jget_applyNullDefault_other _ _ _ (by decide),
      jget_applyNullDefault_other _ _ _ (by decide)]
  have htext : ∀ p : Patch,
      jget (match jget value "text" with
            | some JVal.jundefined => p
            | some v => setKey p "text" v
            | none => p) "external_note" = jget p "external_note" := by
    intro p
    cases hv : jget value "text" with
    | none => rfl
    | some v =>
      cases v <;>
        first
          | rfl
          | exact jget_setKey_other _ _ _ _ (by decide)
  rw [htext,
      jget_serialize_assign _ (some newCategory) value n _ (by decide)]
  have htag : ∀ p : Patch,
      jget (match jget value "tag_numbers" with
            | some (JVal.jarr items) =>
              setKey p "tag_numbers" (JVal.jarr (items.map tagItemToString))
            | _ => p) "external_note" = jget p "external_note" := by
    intro p
    cases hv : jget value "tag_numbers" with
    | none => rfl
    | some v =>
      cases v <;>
        first
          | rfl
          | exact jget_setKey_other _ _ _ _ (by decide)
  rw [htag]
  by_cases ht : jtruthy (jget value "performed_on") = true
  · rw [if_pos ht]
    cases hm : parseISOMillis iso (jget value "performed_on") with
    | none => rfl
    | some m => exact jget_setKey_other _ _ _ _ (by decide)
  · rw [if_neg ht]
    rfl

theorem buildEditPatch_performed_on (note_category : Option String)
    (value : FormValue) (n : Nat) (iso : String → Option Int) :
    jget (buildEditPatch note_category value n iso) "performed_on" =
      (if jtruthy (jget value "performed_on") then
        some (match parseISOMillis iso (jget value "performed_on") with
              | some m => JVal.jnum m
              | none => JVal.jnan)
       else none) := by
  unfold buildEditPatch
  rw [jget_serialize_assign _ note_category value n _ (by decide)]
  have htag : ∀ p : Patch,
      jget (match jget p "tag_numbers" with
            | some (JVal.jarr items) =>
              setKey p "tag_numbers" (JVal.jarr (items.map tagItemToString))
            | _ => p) "performed_on" = jget p "performed_on" := by
    intro p
    cases hv : jget p "tag_numbers" with
    | none => rfl
    | some v =>
      cases v <;>
        first
          | rfl
          | exact jget_setKey_other _ _ _ _ (by decide)
  rw [htag]
  have hfilter : jget (value.filter
      (fun kv => kv.fst != "performed_on")) "performed_on" = none := by
    apply jget_filter_bne
    intro kv h2
    simpa using h2
  by_cases ht : jtruthy (jget value "performed_on") = true
  · rw [if_pos ht, if_pos ht, jget_setKey_same]
  · rw [if_neg ht, if_neg ht]
    exact hfilter

theorem beq_false_of_ne {a b : String} (h : a ≠ b) : (a == b) = false := by
  cases hb : a == b with
  | true => exact absurd (eq_of_beq hb) h
  | false => rfl

/-- Claim C3, counterexample: in the Edit flow an unparseable but present
`performed_on` is not omitted from the patch.  The source converts it with
no validity check, so the patch carries the `NaN` milliseconds of an
invalid DateTime under the `performed_on` key. -/
theorem claim_C3_counterexample :
    jget (buildEditPatch (some "Other")
      [("performed_on", JVal.jstr "not-a-date"), ("text", JVal.jstr "x")] 1
      (fun _ => none)) "performed_on" = some JVal.jnan := rfl

/-- Claim C3, amended: in the Add and Recategorize flows a present but
unparseable `performed_on` is silently omitted from the patch and a
parseable one is stored as epoch milliseconds; in the Edit flow the value
is converted without a validity check, so an unparseable value yields a
`performed_on` entry holding `NaN` instead of being omitted. -/
theorem claim_C3_amended (category : String) (value : FormValue)
    (isPP : Bool) (n : Nat) (iso : String → Option Int)
    (ht : jtruthy (jget value "performed_on") = true) :
    (parseISOMillis iso (jget value "performed_on") = none →
      jget (buildAddPatch category value isPP n iso) "performed_on" =
        none ∧
      jget (buildRecatPatch category value isPP n iso) "performed_on" =
        none ∧
      jget (buildEditPatch (some category) value n iso) "performed_on" =
        some JVal.jnan) ∧
    (∀ m : Int, parseISOMillis iso (jget value "performed_on") = some m →
      jget (buildAddPatch category value isPP n iso) "performed_on" =
        some (JVal.jnum m) ∧
      jget (buildRecatPatch category value isPP n iso) "performed_on" =
        some (JVal.jnum m) ∧
      jget (buildEditPatch (some category) value n iso) "performed_on" =
        some (JVal.jnum m)) := by
  constructor
  · intro hm
    refine ⟨?_, ?_, ?_⟩
    · rw [buildAddPatch_performed_on, if_pos ht, hm]
    · rw [buildRecatPatch_performed_on, if_pos ht, hm]
    · rw [buildEditPatch_performed_on, if_pos ht, hm]
  · intro m hm
    refine ⟨?_, ?_, ?_⟩
    · rw [buildAddPatch_performed_on, if_pos ht, hm]
    · rw [buildRecatPatch_performed_on, if_pos ht, hm]
    · rw [buildEditPatch_performed_on, if_pos ht, hm]

/-- Witness for the amended claim C3: an unparseable submitted date is
absent from the Add patch. -/
theorem claim_C3_amended_witness :
    jget (buildAddPatch "Other" [("performed_on", JVal.jstr "bad")] true 1
      (fun _ => none)) "performed_on" = none :=
  ((claim_C3_amended "Other" [("performed_on", JVal.jstr "bad")] true 1
    (fun _ => none) (by decide)).1 rfl).1

/-- Claim C10: in the Add and Recategorize flows a non-elevated user's
patch always carries `external_note = true` regardless of the submitted
value; an elevated user's patch carries the submitted checkbox value,
defaulting to `false` when absent. -/
theorem claim_C10 (category : String) (value : FormValue) (n : Nat)
    (iso : String → Option Int) :
    (jget (buildAddPatch category value false n iso) "external_note" =
       some (JVal.jbool true) ∧
     jget (buildRecatPatch category value false n iso) "external_note" =
       some (JVal.jbool true)) ∧
    (∀ b : Bool, jget value "external_note" = some (JVal.jbool b) →
      jget (buildAddPatch category value true n iso) "external_note" =
        some (JVal.jbool b) ∧
      jget (buildRecatPatch category value true n iso) "external_note" =
        some (JVal.jbool b)) ∧
    (jget value "external_note" = none →
      jget (buildAddPatch category value true n iso) "external_note" =
        some (JVal.jbool false) ∧
      jget (buildRecatPatch category value true n iso) "external_note" =
        some (JVal.jbool false)) := by
  refine ⟨⟨?_, ?_⟩, ?_, ?_⟩
  · rw [buildAddPatch_external_note]
    rfl
  · rw [buildRecatPatch_external_note]
    rfl
  · intro b hb
    constructor
    · rw [buildAddPatch_external_note]
      simp [externalNoteValue, hb]
    · rw [buildRecatPatch_external_note]
      simp [externalNoteValue, hb]
  · intro hb
    constructor
    · rw [buildAddPatch_external_note]
      simp [externalNoteValue, hb]
    · rw [buildRecatPatch_external_note]
      simp [externalNoteValue, hb]

/-- Witness for claim C10: an elevated user's checked box is stored as
submitted. -/
theorem claim_C10_witness :
    jget (buildAddPatch "Other" [("external_note", JVal.jbool true)] true 1
      (fun _ => none)) "external_note" = some (JVal.jbool true) :=
  ((claim_C10 "Other" [("external_note", JVal.jbool true)] 1
    (fun _ => none)).2.1 true rfl).1

/-- Claim C5, counterexample: the Edit flow does not re-show the fill
dialog on a validation error — the handler returns after the alert, so the
flow ends, unlike the Add and Recategorize loops which stay on the fill
step.  Concretely, editing a `Stack installs` note and submitting an empty
form raises the validation alert and closes the flow. -/
theorem claim_C5_counterexample :
    editNoteSubmit "n1" (some "Stack installs") (some []) 1
      (fun _ => none) =
      (EditStep.closed,
       [FlowEvent.alertDialog
         "At least one stack install must be filled in."]) ∧
    EditStep.closed ≠ EditStep.editDialog :=
  ⟨rfl, by decide⟩

/-- Claim C5, amended: in all three flows a validation error produces
exactly one blocking alert with the message and no persistence call; the
Add and Recategorize flows stay on the in-progress fill step
(re-prompting it), while the Edit flow closes without re-showing the
dialog. -/
theorem claim_C5_amended (noteId category : String) (value : FormValue)
    (isPP : Bool) (n : Nat) (iso : String → Option Int) (err : String)
    (h : cfgValidationError (getCategoryConfig (some category)) value n =
      some err) :
    addNoteSubmit category (some value) isPP n iso =
      (AddStep.fillNote category, [FlowEvent.alertDialog err]) ∧
    recategorizeSubmit noteId category (some value) isPP n iso =
      (RecatStep.fillNewFields category, [FlowEvent.alertDialog err]) ∧
    editNoteSubmit noteId (some category) (some value) n iso =
      (EditStep.closed, [FlowEvent.alertDialog err]) := by
  refine ⟨?_, ?_, ?_⟩ <;> simp [addNoteSubmit, recategorizeSubmit,
    editNoteSubmit, h]

/-- Witness for the amended claim C5 with an empty Stack-installs form. -/
theorem claim_C5_amended_witness :
    addNoteSubmit "Stack installs" (some []) true 1 (fun _ => none) =
      (AddStep.fillNote "Stack installs",
       [FlowEvent.alertDialog
         "At least one stack install must be filled in."]) :=
  (claim_C5_amended "n1" "Stack installs" [] true 1 (fun _ => none)
    "At least one stack install must be filled in." rfl).1

-- ── Extraction presence lemmas (claim C8) ───────────────────────────────

theorem getStackIdentifiers_nodup (n : Nat) :
    (getStackIdentifiers n).Nodup := by
  have h5 : ALL_STACK_IDENTIFIERS.Nodup := by decide
  exact List.Nodup.sublist (List.take_sublist n ALL_STACK_IDENTIFIERS) h5

theorem filter_key_filterMap {α : Type} (ids : List String)
    (f : String → Option α) (key : α → String) (id : String)
    (hnd : ids.Nodup) (hid : id ∈ ids)
    (hkey : ∀ j x, f j = some x → key x = j) :
    (ids.filterMap f).filter (fun r => key r == id) =
      (match f id with
       | some x => [x]
       | none => []) := by
  induction ids with
  | nil => cases hid
  | cons j js ih =>
    have hnd2 := List.nodup_cons.mp hnd
    rcases List.mem_cons.mp hid with rfl | hmem
    · have hrest : (js.filterMap f).filter (fun r => key r == id) = [] := by
        rw [List.filter_eq_nil_iff]
        intro r hr
        rcases List.mem_filterMap.mp hr with ⟨j2, hj2, hfj2⟩
        have hkr := hkey j2 r hfj2
        intro hbeq
        rw [hkr] at hbeq
        exact hnd2.1 (eq_of_beq hbeq ▸ hj2)
      cases hf : f id with
      | none =>
        rw [List.filterMap_cons_none hf]
        exact hrest
      | some x =>
        rw [List.filterMap_cons_some hf]
        have hx : (key x == id) = true := by
          rw [hkey id x hf]
          simp
        simp only [List.filter_cons, hx, if_true]
        rw [hrest]
    · have hjne : j ≠ id := fun h => hnd2.1 (h ▸ hmem)
      cases hf : f j with
      | none =>
        rw [List.filterMap_cons_none hf]
        exact ih hnd2.2 hmem
      | some x =>
        rw [List.filterMap_cons_some hf]
        have hne : (key x == id) = false := by
          rw [hkey j x hf]
          exact beq_false_of_ne hjne
        simp only [List.filter_cons, hne]
        exact ih hnd2.2 hmem

theorem match_option_guard {α : Type} (c : Bool) (x : α) :
    (match (if c then some x else none) with
     | some y => [y]
     | none => []) = (if c then [x] else []) := by
  cases c <;> rfl

/-- Claim C8: for every raw form-value tree and every active stack
identifier, extraction produces exactly one sub-record for that identifier
when the group's presence-determining fields are non-empty (Replacement:
either serial; Inspection/Tensioning: serial or insight; Install: serial),
and no sub-record otherwise; every field of the produced sub-record is
read with a blank/false default, so absent fields never fail. -/
theorem claim_C8 (value : FormValue) (n : Nat) (id : String)
    (hid : id ∈ getStackIdentifiers n) :
    ((extractStackReplacementsFromForm value n).filter
        (fun r => r.identifier == id) =
      (if (jstrOrEmpty (jget (jgroupOf (jget value ("stack_group_" ++ id)))
            ("removed_serial_number_" ++ id)) != "" ||
          jstrOrEmpty (jget (jgroupOf (jget value ("stack_group_" ++ id)))
            ("added_serial_number_" ++ id)) != "") then
        [{ identifier := id,
           removed_serial_number :=
             jstrOrEmpty (jget (jgroupOf (jget value
               ("stack_group_" ++ id))) ("removed_serial_number_" ++ id)),
           added_serial_number :=
             jstrOrEmpty (jget (jgroupOf (jget value
               ("stack_group_" ++ id))) ("added_serial_number_" ++ id)),
           stack_symptom :=
             jstrOrEmpty (jget (jgroupOf (jget value
               ("stack_group_" ++ id))) ("stack_symptom_" ++ id)),
           stack_symptom_confirmed :=
             jtruthy (jget (jgroupOf (jget value ("stack_group_" ++ id)))
               ("stack_symptom_confirmed_" ++ id)) }]
       else [])) ∧
    ((extractStackInspectionsFromForm value n).filter
        (fun r => r.identifier == id) =
      (if (jstrOrEmpty (jget (jgroupOf (jget value
            ("stack_group_inspection_" ++ id)))
            ("stack_serial_number_" ++ id)) != "" ||
          jstrOrEmpty (jget (jgroupOf (jget value
            ("stack_group_inspection_" ++ id)))
            ("insight_" ++ id)) != "") then
        [{ identifier := id,
           serial_number :=
             jstrOrEmpty (jget (jgroupOf (jget value
               ("stack_group_inspection_" ++ id)))
               ("stack_serial_number_" ++ id)),
           insight :=
             jstrOrEmpty (jget (jgroupOf (jget value
               ("stack_group_inspection_" ++ id))) ("insight_" ++ id)),
           completed :=
             jtruthy (jget (jgroupOf (jget value
               ("stack_group_inspection_" ++ id)))
               ("stack_completed_" ++ id)) }]
       else [])) ∧
    ((extractStackTensioningFromForm value n).filter
        (fun r => r.identifier == id) =
      (if (jstrOrEmpty (jget (jgroupOf (jget value
            ("stack_group_tensioning_" ++ id)))
            ("stack_serial_number_" ++ id)) != "" ||
          jstrOrEmpty (jget (jgroupOf (jget value
            ("stack_group_tensioning_" ++ id)))
            ("insight_" ++ id)) != "") then
        [{ identifier := id,
           serial_number :=
             jstrOrEmpty (jget (jgroupOf (jget value
               ("stack_group_tensioning_" ++ id)))
               ("stack_serial_number_" ++ id)),
           insight :=
             jstrOrEmpty (jget (jgroupOf (jget value
               ("stack_group_tensioning_" ++ id))) ("insight_" ++ id)),
           completed :=
             jtruthy (jget (jgroupOf (jget value
               ("stack_group_tensioning_" ++ id)))
               ("stack_completed_" ++ id)) }]
       else [])) ∧
    ((extractStackInstallsFromForm value n).filter
        (fun r => r.identifier == id) =
      (if jstrOrEmpty (jget (jgroupOf (jget value
            ("stack_group_installs_" ++ id)))
            ("stack_serial_number_" ++ id)) != "" then
        [{ identifier := id,
           serial_number :=
             jstrOrEmpty (jget (jgroupOf (jget value
               ("stack_group_installs_" ++ id)))
               ("stack_serial_number_" ++ id)) }]
       else [])) := by
  refine ⟨?_, ?_, ?_, ?_⟩
  · unfold extractStackReplacementsFromForm
    rw [filter_key_filterMap _ _ StackReplacement.identifier id
      (getStackIdentifiers_nodup n) hid]
    · exact match_option_guard _ _
    · intro j x h
      dsimp only at h
      split at h
      · injection h with h2
        subst h2
        rfl
      · cases h
  · unfold extractStackInspectionsFromForm
    rw [filter_key_filterMap _ _ StackInspection.identifier id
      (getStackIdentifiers_nodup n) hid]
    · exact match_option_guard _ _
    · intro j x h
      dsimp only at h
      split at h
      · injection h with h2
        subst h2
        rfl
      · cases h
  · unfold extractStackTensioningFromForm
    rw [filter_key_filterMap _ _ StackTensioning.identifier id
      (getStackIdentifiers_nodup n) hid]
    · exact match_option_guard _ _
    · intro j x h
      dsimp only at h
      split at h
      · injection h with h2
        subst h2
        rfl
      · cases h
  · unfold extractStackInstallsFromForm
    rw [filter_key_filterMap _ _ StackInstall.identifier id
      (getStackIdentifiers_nodup n) hid]
    · exact match_option_guard _ _
    · intro j x h
      dsimp only at h
      split at h
      · injection h with h2
        subst h2
        rfl
      · cases h

/-- Witness for claim C8: an Install group with only the serial filled
contributes exactly one sub-record, and the same group read by the other
extractors contributes none. -/
theorem claim_C8_witness :
    (extractStackInstallsFromForm
      [("stack_group_installs_a",
        JVal.jobj [("stack_serial_number_a", JVal.jstr "SN-1")])] 1).filter
      (fun r => r.identifier == "a") =
      [{ identifier := "a", serial_number := "SN-1" }] :=
  (claim_C8 [("stack_group_installs_a",
    JVal.jobj [("stack_serial_number_a", JVal.jstr "SN-1")])] 1 "a"
    (by decide)).2.2.2

end ServiceLogbook
